import Mathlib

/-!
Shallow Lean embedding of the scalping_15m trading orchestrator
(`trading_utils.py`, `positions.py`, `futures_gpt_orchestrator_full.py`),
used to check the natural-language specification against the code.

Python floats are modelled as exact rationals (`ℚ`); Python `None` as
`Option.none`; Python truthiness of optional numbers/strings via the
`truthy` helpers below; exchange/network calls as explicit environment
data, with `Except Unit` for calls whose failure the code handles
specially.  Definitions follow the source line by line; comments cite
the Python function each definition embeds.
-/

namespace Scalping

/-- Python `a or b` on optional floats: `None` and `0.0` are falsy. -/
def pyOrQ (a b : Option ℚ) : Option ℚ :=
  match a with
  | some x => if x = 0 then b else some x
  | none => b

/-- Python `a or b` on optional strings: `None` and `""` are falsy. -/
def pyOrS (a b : Option String) : Option String :=
  match a with
  | some s => if s = "" then b else some s
  | none => b

/-- Truthiness of an optional float (`None` and `0.0` falsy). -/
def truthyQ : Option ℚ → Bool
  | none => false
  | some x => x ≠ 0

/-- Truthiness of an optional string (`None` and `""` falsy). -/
def truthyS : Option String → Bool
  | none => false
  | some s => s ≠ ""

/-- `str.upper()` restricted to ASCII, as used on pair symbols. -/
def strUpper (s : String) : String :=
  String.mk (s.data.map Char.toUpper)

/-- `str.replace("/", "")`: drop every slash. -/
def stripSlash (s : String) : String :=
  String.mk (s.data.filter (fun c => c ≠ '/'))

/-- `symbol.split(":")[0]`. -/
def upToColon (s : String) : String :=
  String.mk (s.data.takeWhile (fun c => c ≠ ':'))

/-- `s.endswith(t)`. -/
def strEndsWith (s t : String) : Bool :=
  decide (s.data.drop (s.data.length - t.data.length) = t.data)

/-- `s[:-n]` for nonempty drops (Python slice semantics for n ≤ len). -/
def strDropRight (s : String) (n : ℕ) : String :=
  String.mk (s.data.take (s.data.length - n))

/-- `s[-n:]`. -/
def strTakeRight (s : String) (n : ℕ) : String :=
  String.mk (s.data.drop (s.data.length - n))

/-- `positions._norm_pair_from_symbol`: CCXT symbol to `BASEQUOTE` form;
falsy input yields `""`. -/
def norm_pair_from_symbol : Option String → String
  | none => ""
  | some s => if s = "" then "" else strUpper (stripSlash (upToColon s))

/-- `trading_utils.KNOWN_QUOTES` sorted by length descending (Python
`sorted(..., key=len, reverse=True)` is stable). -/
def knownQuotes : List String :=
  ["USDT", "BUSD", "USDC", "USD", "BTC", "ETH", "BNB"]

/-- `trading_utils.to_ccxt_symbol` with no exchange supplied: split a
`BASEQUOTE` pair on a known quote suffix, else on the last four chars. -/
def to_ccxt_symbol (pairNoSlash : String) : String :=
  let pair := strUpper pairNoSlash
  match knownQuotes.find? (fun q =>
      strEndsWith pair q && strDropRight pair q.data.length ≠ "") with
  | some q => strDropRight pair q.data.length ++ "/" ++ q
  | none => strDropRight pair 4 ++ "/" ++ strTakeRight pair 4

/-- Round half to even (Python `round` semantics on exact values). -/
def roundHalfEven (q : ℚ) : ℤ :=
  let f := ⌊q⌋
  let r := q - (f : ℚ)
  if r < 1/2 then f
  else if 1/2 < r then f + 1
  else if f % 2 = 0 then f else f + 1

/-- Fuel-driven base-10 logarithm on naturals (kernel-reducible). -/
def log10fuel : ℕ → ℕ → ℕ
  | 0, _ => 0
  | fuel + 1, n => if n < 10 then 0 else log10fuel fuel (n / 10) + 1

/-- `⌊log10 n⌋` for `1 ≤ n` (0 for 0). -/
def natLog10 (n : ℕ) : ℕ := log10fuel n n

/-- `⌊log10 |q|⌋` for `q ≠ 0` (0 at 0). -/
def qLog10 (q : ℚ) : ℤ :=
  if q = 0 then 0
  else
    let a := |q|
    if 1 ≤ a then (natLog10 ⌊a⌋.toNat : ℤ)
    else
      let r := a⁻¹
      let k := natLog10 ⌊r⌋.toNat
      if r = (10 : ℚ) ^ k then -(k : ℤ) else -(k : ℤ) - 1

/-- `env_utils.rfloat(value, nd)` idealised on exact rationals: round to
`nd` significant decimal digits, half to even (`float(f"{value:.{nd}g}")`).
`None` propagation is handled at call sites via `Option.map`. -/
def rfloat (q : ℚ) (nd : ℕ) : ℚ :=
  if q = 0 then 0
  else
    let e : ℤ := qLog10 q - ((nd : ℤ) - 1)
    (roundHalfEven (q * (10 : ℚ) ^ (-e)) : ℚ) * (10 : ℚ) ^ e

/-- `trading_utils.round_step`: round `qty` down to a multiple of `step`
(returns `qty` unchanged when `step ≤ 0`). -/
def round_step (qty step : ℚ) : ℚ :=
  if step ≤ 0 then qty else (⌊qty / step⌋ : ℚ) * step

/-- `trading_utils.calc_qty`: risk-based position size capped by the
leverage ceiling, floored to the exchange quantity step. -/
def calc_qty (capital risk_frac entry sl step max_leverage contract_size : ℚ) : ℚ :=
  let dist := |entry - sl|
  if dist ≤ 0 ∨ risk_frac ≤ 0 ∨ capital ≤ 0 then 0
  else
    let raw := capital * risk_frac / dist
    let max_qty := capital * max_leverage / (entry * contract_size)
    round_step (min raw max_qty) step

/-- Modelled from the spec (§4.4): `floor_to_step` rounds down to the
nearest multiple of the (positive) step.  Spec-side definition used to
compare `calc_qty` against the spec's sizing formula. -/
def floor_to_step (q step : ℚ) : ℚ :=
  (⌊q / step⌋ : ℚ) * step

/-- Modelled from the spec (§4.4): the Position Sizer formula
`floor_to_step(min(raw_qty, max_qty), quantity_step)` with the discard
guards, discards represented as a zero quantity. -/
def spec_calc_qty (capital risk_frac entry sl step max_leverage contract_size : ℚ) : ℚ :=
  let distance := |entry - sl|
  if distance ≤ 0 ∨ risk_frac ≤ 0 ∨ capital ≤ 0 then 0
  else
    let raw_qty := capital * risk_frac / distance
    let max_qty := capital * max_leverage / (entry * contract_size)
    floor_to_step (min raw_qty max_qty) step

/-- `trading_utils.infer_side`: infer buy/sell from entry, stop-loss and
optional take-profit.  With a take-profit present the code demands
`tp > entry > sl` (buy) or `tp < entry < sl` (sell), else returns `None`. -/
def infer_side (entry sl : ℚ) (tp : Option ℚ) : Option String :=
  match tp with
  | some t =>
      if t > entry ∧ entry > sl then some "buy"
      else if t < entry ∧ entry < sl then some "sell"
      else none
  | none =>
      if entry > sl then some "buy"
      else if entry < sl then some "sell"
      else none

/-! ## Oracle response parsing (`trading_utils.parse_mini_actions`)

The JSON text is modelled after `try_extract_json` and the `float(...)`
conversions have succeeded: numeric fields are `Option ℚ` (`none` for a
missing, `null` or `""` field), the `pair` field an `Option String`. -/

/-- One entry of the `"coins"` array of the oracle JSON. -/
structure CoinJson where
  pair : Option String := none
  entry : Option ℚ := none
  sl : Option ℚ := none
  tp1 : Option ℚ := none
  tp2 : Option ℚ := none
  tp3 : Option ℚ := none
  risk : Option ℚ := none
  conf : Option ℚ := none
  rr : Option ℚ := none

/-- One entry of the `"close_all"` array of the oracle JSON. -/
structure CloseJson where
  pair : Option String := none

/-- One entry of the `"close_partial"` array of the oracle JSON. -/
structure PartJson where
  pair : Option String := none
  pct : Option ℚ := none

/-- The decoded oracle JSON object (the keys `parse_mini_actions` reads:
`coins`, `close_all`, `close_partial`; a missing key is `[]`). -/
structure OracleJson where
  coins : List CoinJson := []
  close_all : List CloseJson := []
  close_part : List PartJson := []

/-- `(item.get("pair") or "").upper().replace("/", "")`. -/
def normPairField (p : Option String) : String :=
  match pyOrS p (some "") with
  | some s => stripSlash (strUpper s)
  | none => ""

/-- A validated open instruction as appended to `coins` by
`parse_mini_actions`. -/
structure Coin where
  pair : String
  entry : ℚ
  sl : ℚ
  tp1 : Option ℚ := none
  tp2 : Option ℚ := none
  tp3 : Option ℚ := none
  risk : Option ℚ := none
  conf : Option ℚ := none
  rr : Option ℚ := none
deriving DecidableEq

/-- Is take-profit `tp` on the wrong side of `entry` for `side`?
(`parse_mini_actions` drops the action when this holds for any tp.) -/
def tpRejected (side : String) (entry : ℚ) (tp : Option ℚ) : Bool :=
  match tp with
  | none => false
  | some t => (side = "buy" ∧ t ≤ entry) ∨ (side = "sell" ∧ t ≥ entry)

/-- Is a supplied risk fraction outside `(0, 1)`?  (`parse_mini_actions`
drops the action when this holds; an absent risk is accepted.) -/
def riskRejected : Option ℚ → Bool
  | none => false
  | some r => ¬(0 < r ∧ r < 1)

/-- The body of the `coins` loop of `parse_mini_actions`: validate one
item, `none` meaning `continue` (entry dropped). -/
def parseCoinItem (item : CoinJson) : Option Coin :=
  let pair := normPairField item.pair
  if pair = "" then none
  else
    match item.entry, item.sl with
    | some entry, some sl =>
        if entry = sl then none
        else if riskRejected item.risk then none
        else
          let side := if entry > sl then "buy" else "sell"
          if tpRejected side entry item.tp1 then none
          else if tpRejected side entry item.tp2 then none
          else if tpRejected side entry item.tp3 then none
          else some { pair := pair, entry := entry, sl := sl,
                      tp1 := item.tp1, tp2 := item.tp2, tp3 := item.tp3,
                      risk := item.risk, conf := item.conf, rr := item.rr }
    | _, _ => none

/-- Result of `parse_mini_actions`: a dict with exactly the keys
`coins`, `close_all` and `close_partial` (in particular, no `close` and
no `move_sl` key is ever produced). -/
structure MiniActions where
  coins : List Coin
  close_all : List String
  close_part : List (String × ℚ)
deriving DecidableEq

/-- `trading_utils.parse_mini_actions` on the decoded oracle JSON. -/
def parse_mini_actions (j : OracleJson) : MiniActions :=
  { coins := j.coins.filterMap parseCoinItem
    close_all := j.close_all.filterMap (fun item =>
      let pair := normPairField item.pair
      if pair = "" then none else some pair)
    close_part := j.close_part.filterMap (fun item =>
      let pair := normPairField item.pair
      match item.pct with
      | none => none
      | some pct =>
          if pair = "" ∨ ¬(0 < pct ∧ pct ≤ 100) then none
          else some (pair, pct)) }

/-! ## Exchange data (`positions.py`)

Exchange replies are data; a call the code guards with `try/except` is
an `Except Unit` value so both outcomes are covered.  Dict lookups such
as `p.get("contracts")` are optional structure fields (`info` sub-dict
fields are flattened with an `info` prefix); boolean flags use `Bool`
since Python treats a missing key, `None` and `False` alike there. -/

/-- A position dict as returned by `exchange.fetch_positions()`. -/
structure PyPos where
  symbol : Option String := none
  infoSymbol : Option String := none
  contracts : Option ℚ := none
  amount : Option ℚ := none
  size : Option ℚ := none
  qty : Option ℚ := none
  quantity : Option ℚ := none
  infoPositionAmt : Option ℚ := none
  infoSize : Option ℚ := none
  infoQty : Option ℚ := none
  infoQuantity : Option ℚ := none
  entryPrice : Option ℚ := none
  avgPrice : Option ℚ := none
  averagePrice : Option ℚ := none
  meanPrice : Option ℚ := none
  infoEntryPrice : Option ℚ := none
  infoAvgEntryPrice : Option ℚ := none
  infoAvgPrice : Option ℚ := none
  unrealizedPnl : Option ℚ := none
  infoUnrealizedProfit : Option ℚ := none

/-- An order dict as returned by `fetch_open_orders` / `fetch_order`. -/
structure PyOrder where
  id : Option String := none
  symbol : Option String := none
  infoSymbol : Option String := none
  type : Option String := none
  price : Option ℚ := none
  stopPrice : Option ℚ := none
  triggerPrice : Option ℚ := none
  timestamp : Option ℚ := none
  reduceOnly : Bool := false
  reduceOnlySnake : Bool := false
  infoReduceOnly : Bool := false
  infoReduceOnlySnake : Bool := false
  infoClosePosition : Bool := false
  infoCloseOnTriggerSnake : Bool := false
  infoCloseOnTrigger : Bool := false
  infoStopPrice : Option ℚ := none
  infoTriggerPrice : Option ℚ := none
  infoOrderPrice : Option ℚ := none
  infoPrice : Option ℚ := none
  infoUpdateTime : Option ℚ := none
  infoTime : Option ℚ := none

/-- `str.lower()` restricted to ASCII. -/
def strLower (s : String) : String :=
  String.mk (s.data.map Char.toLower)

/-- `sym = p.get("symbol") or (p.get("info") or {}).get("symbol")`. -/
def posRawSym (p : PyPos) : Option String :=
  pyOrS p.symbol p.infoSymbol

/-- The top-level amount fallback chain
`p.get("contracts") or ... or p.get("quantity")`. -/
def posAmtTop (p : PyPos) : Option ℚ :=
  pyOrQ (pyOrQ (pyOrQ (pyOrQ p.contracts p.amount) p.size) p.qty) p.quantity

/-- Amount as read by `get_open_position_pairs`: the top-level chain,
falling back to the `info` chain that ends in `or 0`. -/
def posAmtOpen (p : PyPos) : Option ℚ :=
  match posAmtTop p with
  | some v => some v
  | none =>
      pyOrQ (pyOrQ (pyOrQ (pyOrQ p.infoPositionAmt p.infoSize) p.infoQty)
        p.infoQuantity) (some 0)

/-- Amount as read by `positions_snapshot`: the same chains but the
`info` chain has no `or 0`, so it may stay `None` (skipping the entry). -/
def posAmtSnap (p : PyPos) : Option ℚ :=
  match posAmtTop p with
  | some v => some v
  | none =>
      pyOrQ (pyOrQ (pyOrQ p.infoPositionAmt p.infoSize) p.infoQty) p.infoQuantity

/-- The entry-price fallback chain of `positions_snapshot`. -/
def posEntry (p : PyPos) : Option ℚ :=
  pyOrQ (pyOrQ (pyOrQ (pyOrQ (pyOrQ (pyOrQ p.entryPrice p.avgPrice)
    p.averagePrice) p.meanPrice) p.infoEntryPrice) p.infoAvgEntryPrice)
    p.infoAvgPrice

/-- `positions.get_open_position_pairs`: the set of pairs with a
non-zero position amount (a fetch error yields the empty set).  The set
is modelled as an insertion-ordered duplicate-free list. -/
def getOpenPositionPairs (fetched : Except Unit (List PyPos)) : List String :=
  match fetched with
  | .error _ => []
  | .ok ps =>
      ps.foldl (fun out p =>
        let pair := norm_pair_from_symbol (posRawSym p)
        match posAmtOpen p with
        | some v => if |v| > 0 then (if pair ∈ out then out else out ++ [pair]) else out
        | none => out) []

/-- `positions_snapshot._extract_price`: the stop/trigger/price fallback
chain of the inner helper. -/
def extract_price (o : PyOrder) : Option ℚ :=
  pyOrQ (pyOrQ (pyOrQ (pyOrQ (pyOrQ o.stopPrice o.infoStopPrice)
    o.infoTriggerPrice) o.infoOrderPrice) o.price) o.infoPrice

/-- The reduce-only/close-position disjunction of the `stop_orders`
filter in `positions_snapshot`. -/
def reduceOnlyLike (o : PyOrder) : Bool :=
  o.reduceOnly || o.reduceOnlySnake || o.infoReduceOnly ||
    o.infoReduceOnlySnake || o.infoClosePosition ||
    o.infoCloseOnTriggerSnake || o.infoCloseOnTrigger

/-- Stable insertion into an ascending-sorted list (earlier elements
stay in front of equal later ones, like Python `sorted`). -/
def insertAsc (x : ℚ) : List ℚ → List ℚ
  | [] => [x]
  | y :: ys => if x ≤ y then x :: y :: ys else y :: insertAsc x ys

/-- Stable ascending sort (Python `sorted`). -/
def sortAsc : List ℚ → List ℚ
  | [] => []
  | x :: xs => insertAsc x (sortAsc xs)

/-- Stable insertion into a descending-sorted list. -/
def insertDesc (x : ℚ) : List ℚ → List ℚ
  | [] => [x]
  | y :: ys => if x ≥ y then x :: y :: ys else y :: insertDesc x ys

/-- Stable descending sort (Python `sorted(..., reverse=True)`). -/
def sortDesc : List ℚ → List ℚ
  | [] => []
  | x :: xs => insertDesc x (sortDesc xs)

/-- `min` of a list (Python `min`; 0 on `[]`, never used there). -/
def listMin : List ℚ → ℚ
  | [] => 0
  | x :: xs => xs.foldl min x

/-- `max` of a list (Python `max`; 0 on `[]`, never used there). -/
def listMax : List ℚ → ℚ
  | [] => 0
  | x :: xs => xs.foldl max x

/-- One snapshot entry of `positions_snapshot` (after `drop_empty`; a
dropped key reads back as `None`, which `Option` already models). -/
structure SnapPos where
  pair : String
  side : String
  entry : ℚ
  qty : ℚ
  tp : Option ℚ := none
  tp1 : Option ℚ := none
  tp2 : Option ℚ := none
  tp3 : Option ℚ := none
  pnl : Option ℚ := none
  sl : Option ℚ := none
deriving DecidableEq

/-- The body of the `positions_snapshot` loop for one raw position;
`ordersOf` is the outcome of `exchange.fetch_open_orders(sym)` (an error
is treated as no orders, as in the code).  `none` = `continue`. -/
def snapOne (ordersOf : Option String → Except Unit (List PyOrder))
    (p : PyPos) : Option SnapPos :=
  let symOpt := posRawSym p
  let pair := norm_pair_from_symbol symOpt
  match posAmtSnap p, posEntry p with
  | some amt, some entryPrice =>
      if amt = 0 then none
      else
        let side := if amt > 0 then "buy" else "sell"
        let qty := |amt|
        let pnl := (pyOrQ p.unrealizedPnl p.infoUnrealizedProfit).map (fun v => rfloat v 6)
        let orders := match ordersOf symOpt with
          | .error _ => []
          | .ok os => os
        let stopOrders := orders.filter (fun o =>
          reduceOnlyLike o && (extract_price o).isSome)
        let prices := stopOrders.filterMap extract_price
        let slPrices := prices.filter (fun pr =>
          if side = "buy" then pr < entryPrice else pr > entryPrice)
        let tpPrices := prices.filter (fun pr =>
          if side = "buy" then pr > entryPrice else pr < entryPrice)
        let sl := if slPrices = [] then none
          else some (rfloat (if side = "buy" then listMin slPrices else listMax slPrices) 6)
        let tpSorted := if side = "buy" then sortAsc tpPrices else sortDesc tpPrices
        some { pair := pair, side := side,
               entry := rfloat entryPrice 6, qty := rfloat qty 6,
               tp := (tpSorted.get? 0).map (fun v => rfloat v 6),
               tp1 := (tpSorted.get? 0).map (fun v => rfloat v 6),
               tp2 := (tpSorted.get? 1).map (fun v => rfloat v 6),
               tp3 := (tpSorted.get? 2).map (fun v => rfloat v 6),
               pnl := pnl, sl := sl }
  | _, _ => none

/-- `positions.positions_snapshot`: a fetch error yields `[]`. -/
def positions_snapshot (fetchedPos : Except Unit (List PyPos))
    (ordersOf : Option String → Except Unit (List PyOrder)) : List SnapPos :=
  match fetchedPos with
  | .error _ => []
  | .ok ps => ps.filterMap (snapOne ordersOf)

/-! ## `trading_utils.enrich_tp_qty` -/

/-- Market metadata the code reads from `exchange.market(sym)` and
`qty_step` (amount step, max leverage with its `or 1` fallbacks,
contract size with its `or 1` fallback), abstracted per CCXT symbol. -/
structure MktMeta where
  step : ℚ
  maxLev : ℚ
  contract : ℚ

/-- An action dict after `enrich_tp_qty` filled tp/qty/risk/side. -/
structure EnrichedCoin where
  pair : String
  entry : ℚ
  sl : ℚ
  tp1 : ℚ
  tp2 : ℚ
  tp3 : ℚ
  qty : ℚ
  risk : ℚ
  side : String
  conf : Option ℚ := none
  rr : Option ℚ := none
deriving DecidableEq

/-- The body of the `enrich_tp_qty` loop for one parsed action
(`none` = dropped): default TP levels at 1R/1.5R, risk default 1%,
`calc_qty` sizing, side from `infer_side` against the (unrounded) TP1. -/
def enrichOne (mkt : String → MktMeta) (capital : ℚ) (a : Coin) : Option EnrichedCoin :=
  let entry := a.entry
  let sl := a.sl
  let dist := entry - sl
  let tp1def := entry + 1 * dist
  let tp2def := entry + 3/2 * dist
  let tp1 := match a.tp1 with
    | some t => if t ≠ entry then t else tp1def
    | none => tp1def
  let tp2 := match a.tp2 with
    | some t => if t ≠ entry then t else tp2def
    | none => tp2def
  let tp3def := tp2def
  let tp3 := match a.tp3 with
    | some t => if t ≠ entry then t else tp3def
    | none => tp3def
  let rf := match a.risk with
    | some r => if r > 0 then r else 1/100
    | none => 1/100
  let sym := to_ccxt_symbol a.pair
  let m := mkt sym
  let qty := calc_qty capital rf entry sl m.step m.maxLev m.contract
  if qty ≤ 0 then none
  else
    match infer_side entry sl (some tp1) with
    | some side =>
        if side = "buy" ∨ side = "sell" then
          some { pair := a.pair, entry := entry, sl := sl,
                 tp1 := rfloat tp1 8, tp2 := rfloat tp2 8, tp3 := rfloat tp3 8,
                 qty := rfloat qty 8, risk := rfloat rf 6,
                 side := side, conf := a.conf, rr := a.rr }
        else none
    | none => none

/-- `trading_utils.enrich_tp_qty`. -/
def enrich_tp_qty (mkt : String → MktMeta) (acts : List Coin) (capital : ℚ) :
    List EnrichedCoin :=
  acts.filterMap (enrichOne mkt capital)

/-! ## Orchestrator (`futures_gpt_orchestrator_full.py`)

The local `outputs/limit_orders` directory is a list of
`(file stem, record)` pairs; exchange mutations are collected in traces:
`cancels : List (Option String)` records `cancel_order` calls by order
id, `created : List OrderReq` records successfully created orders
(an exception from `create_order` creates nothing). -/

/-- A pending limit-order JSON file (`{pair}.json`). -/
structure LimitRec where
  pair : Option String := none
  order_id : Option String := none
  side : Option String := none
  limit : Option ℚ := none
  qty : Option ℚ := none
  sl : Option ℚ := none
  tp1 : Option ℚ := none
  tp2 : Option ℚ := none
  tp3 : Option ℚ := none
  expiry : Option ℚ := none
  ts : Option ℚ := none
deriving DecidableEq

/-- The local pending-entry store: file stem (no `.json`) to record. -/
abbrev Store := List (String × LimitRec)

/-- An order-creation request (`exchange.create_order` arguments). -/
structure OrderReq where
  symbol : String
  type : String
  side : String
  qty : Option ℚ := none
  price : Option ℚ := none
  stopPrice : Option ℚ := none
  reduceOnly : Bool := false
  closePosition : Bool := false
deriving DecidableEq

/-- `s.startswith(t)`. -/
def strStartsWith (s t : String) : Bool :=
  decide (s.data.take t.data.length = t.data)

/-- `(o.get("type") or "").lower() == "limit"`. -/
def isLimitType (o : PyOrder) : Bool :=
  strLower (o.type.getD "") = "limit"

/-- `o.get("symbol") or (o.get("info") or {}).get("symbol")`. -/
def orderSym (o : PyOrder) : Option String :=
  pyOrS o.symbol o.infoSymbol

/-- Normalized pair of an order's symbol. -/
def orderPair (o : PyOrder) : String :=
  norm_pair_from_symbol (orderSym o)

/-! ### `cancel_expired_limit_orders` -/

/-- The `all([expiry, ts, order_id, pair])` truthiness guard. -/
def recReady (r : LimitRec) : Bool :=
  truthyQ r.expiry && truthyQ r.ts && truthyS r.order_id && truthyS r.pair

/-- `now - float(ts) >= float(expiry)` (the code `continue`s on `<`). -/
def recElapsed (now : ℚ) (r : LimitRec) : Bool :=
  match r.ts, r.expiry with
  | some ts, some ex => ¬(now - ts < ex)
  | _, _ => false

/-- Loop body of `cancel_expired_limit_orders` for one file:
`fetchStatus` is the status reported by `exchange.fetch_order`
(`none` both for a fetch error and a missing status field).  Returns
the file if kept, plus the `cancel_order` calls issued. -/
def expiryStep (now : ℚ) (fetchStatus : String → Option String)
    (fr : String × LimitRec) : Option (String × LimitRec) × List String :=
  let r := fr.2
  if ¬(recReady r) then (some fr, [])
  else if ¬(recElapsed now r) then (some fr, [])
  else
    let oid := r.order_id.getD ""
    match fetchStatus oid with
    | some s => if s = "closed" then (none, []) else (none, [oid])
    | none => (none, [oid])

/-- `cancel_expired_limit_orders`: sweep every pending-entry file,
returning the surviving store and the cancel calls issued. -/
def cancel_expired_limit_orders (now : ℚ) (fetchStatus : String → Option String) :
    Store → Store × List String
  | [] => ([], [])
  | fr :: rest =>
      let step := expiryStep now fetchStatus fr
      let tail := cancel_expired_limit_orders now fetchStatus rest
      (match step.1 with
       | some k => k :: tail.1
       | none => tail.1,
       step.2 ++ tail.2)

/-! ### `remove_unmapped_limit_files` -/

/-- `remove_unmapped_limit_files`: drop every record whose (uppercased)
stem has neither a live open *limit* order nor an open position.  A
`fetch_open_orders` failure is handled by the code as an empty order
list and the sweep proceeds. -/
def remove_unmapped_limit_files (fetchedOrders : Except Unit (List PyOrder))
    (fetchedPos : Except Unit (List PyPos)) (store : Store) : Store :=
  let orders := match fetchedOrders with
    | .error _ => []
    | .ok os => os
  let openPairs := (orders.filter isLimitType).map orderPair
  let posPairs := getOpenPositionPairs fetchedPos
  store.filter (fun fr => strUpper fr.1 ∈ openPairs ∨ strUpper fr.1 ∈ posPairs)

/-! ### `cancel_unpositioned_limits` -/

/-- `o.get("timestamp") or info.get("updateTime") or info.get("time")`. -/
def orderTs (o : PyOrder) : Option ℚ :=
  pyOrQ (pyOrQ o.timestamp o.infoUpdateTime) o.infoTime

/-- `ts / 1000 if ts > 1e12 else ts`. -/
def tsToSec (ts : ℚ) : ℚ :=
  if ts > 10 ^ 12 then ts / 1000 else ts

/-- Loop body of `cancel_unpositioned_limits` for one open order:
threads the local store and cancel trace; `cancelOk` is whether the
`cancel_order` call succeeds (on failure the code `continue`s before
deleting the file). -/
def culOrder (now maxAge : ℚ) (posPairs : List String)
    (cancelOk : Option String → Bool) (acc : Store × List (Option String))
    (o : PyOrder) : Store × List (Option String) :=
  if o.reduceOnly then acc
  else if ¬(isLimitType o) then acc
  else
    let pair := orderPair o
    if pair ∈ posPairs then acc
    else
      match orderTs o with
      | none => acc
      | some ts =>
          if now - tsToSec ts < maxAge then acc
          else if cancelOk o.id then
            (acc.1.filter (fun fr => fr.1 ≠ pair), acc.2 ++ [o.id])
          else acc

/-- `cancel_unpositioned_limits` (default `max_age_sec = 1800`): cancel
stale non-reduce-only limit orders of pairs without positions and delete
their local record.  A `fetch_open_orders` failure aborts the sweep. -/
def cancel_unpositioned_limits (now maxAge : ℚ)
    (fetchedOrders : Except Unit (List PyOrder))
    (fetchedPos : Except Unit (List PyPos)) (store : Store)
    (cancelOk : Option String → Bool) : Store × List (Option String) :=
  match fetchedOrders with
  | .error _ => (store, [])
  | .ok orders =>
      let posPairs := getOpenPositionPairs fetchedPos
      orders.foldl (culOrder now maxAge posPairs cancelOk) (store, [])

/-! ### `cancel_unpositioned_stops` -/

/-- `cancel_unpositioned_stops`: cancel reduce-only/close-position
stop-or-take-profit orders of pairs without positions; returns the
cancel calls attempted (a failed cancel is only logged). -/
def cancel_unpositioned_stops (fetchedOrders : Except Unit (List PyOrder))
    (fetchedPos : Except Unit (List PyPos)) : List (Option String) :=
  match fetchedOrders with
  | .error _ => []
  | .ok orders =>
      let posPairs := getOpenPositionPairs fetchedPos
      orders.foldl (fun acc o =>
        if ¬(o.reduceOnly || o.infoClosePosition) then acc
        else if ¬(truthyQ (pyOrQ (pyOrQ (pyOrQ o.stopPrice o.infoStopPrice)
                    o.triggerPrice) o.infoTriggerPrice)
                  || strStartsWith (strLower (o.type.getD "")) "take"
                  || strStartsWith (strLower (o.type.getD "")) "stop") then acc
        else
          let pair := orderPair o
          if pair ∈ posPairs then acc
          else
            match o.id with
            | none => acc
            | some oid => if oid = "" then acc else acc ++ [some oid]) []

/-! ### `_place_sl_tp` and `move_sl_to_entry` -/

/-- The 30/50/20 take-profit split of `_place_sl_tp`:
`q1 = qty*0.3`, `q2 = qty*0.5`, `q3 = qty - q1 - q2`. -/
def legQtys (qty : ℚ) : ℚ × ℚ × ℚ :=
  (qty * (3/10), qty * (1/2), qty - qty * (3/10) - qty * (1/2))

/-- `_place_sl_tp`: cancel existing close-position/reduce-only orders,
place the stop, then one to three take-profit orders.  `existing` is the
outcome of the `fetch_open_orders` call (error = no orders). Returns the
cancel trace and the creation requests issued. -/
def place_sl_tp (existing : Except Unit (List PyOrder)) (symbol side : String)
    (qty : Option ℚ) (sl : ℚ) (tp1 : Option ℚ) (tp2 tp3 : Option ℚ) :
    List (Option String) × List OrderReq :=
  let exitSide := if side = "buy" then "sell" else "buy"
  let orders := match existing with
    | .error _ => []
    | .ok os => os
  let cancels := (orders.filter (fun o =>
    o.infoClosePosition || o.infoReduceOnly)).map (fun o => o.id)
  let stop : OrderReq := { symbol := symbol, type := "STOP_MARKET", side := exitSide,
                           stopPrice := some sl, closePosition := true }
  match qty with
  | none =>
      (cancels, [stop,
        { symbol := symbol, type := "TAKE_PROFIT_MARKET", side := exitSide,
          stopPrice := tp1, closePosition := true }])
  | some q =>
      if tp2 = none ∧ tp3 = none then
        (cancels, [stop,
          { symbol := symbol, type := "LIMIT", side := exitSide,
            qty := some q, price := tp1, reduceOnly := true }])
      else
        let qs := legQtys q
        (cancels,
          [stop,
           { symbol := symbol, type := "LIMIT", side := exitSide,
             qty := some qs.1, price := tp1, reduceOnly := true }] ++
          (match tp2 with
           | some t2 => [{ symbol := symbol, type := "LIMIT", side := exitSide,
                           qty := some qs.2.1, price := some t2, reduceOnly := true }]
           | none => []) ++
          (match tp3 with
           | some t3 => [{ symbol := symbol, type := "TAKE_PROFIT_MARKET", side := exitSide,
                           qty := some qs.2.2, stopPrice := some t3, reduceOnly := true }]
           | none => []))

/-- Environment of the break-even sweep `move_sl_to_entry`:
`ticker sym` is `float(ticker.get("last") or ticker.get("close"))`
(`none` for a fetch error or missing price, both skipped). -/
structure SweepEnv where
  positions : Except Unit (List PyPos)
  ordersOf : Option String → Except Unit (List PyOrder)
  ticker : String → Option ℚ

/-- The stop/trigger/price chain of the `stop_orders` filter in
`move_sl_to_entry` (note: includes plain `price`, so take-profit limit
orders qualify as well). -/
def extractPriceMove (o : PyOrder) : Option ℚ :=
  pyOrQ (pyOrQ (pyOrQ (pyOrQ o.stopPrice o.infoStopPrice) o.triggerPrice)
    o.infoTriggerPrice) o.price

/-- Loop body of `move_sl_to_entry` for one snapshot position: when the
price is at least one unit of risk away from entry (in either
direction), cancel every reduce-only order carrying a price and place a
close-position stop at the entry price. -/
def moveSlPos (env : SweepEnv) (p : SnapPos) : List (Option String) × List OrderReq :=
  if ¬(p.pair ≠ "" ∧ p.side ≠ "" ∧ p.entry ≠ 0 ∧ truthyQ p.sl) then ([], [])
  else
    let sl := p.sl.getD 0
    let risk := |p.entry - sl|
    if risk ≤ 0 then ([], [])
    else
      let symbol := to_ccxt_symbol p.pair
      match env.ticker symbol with
      | none => ([], [])
      | some price =>
          if |price - p.entry| < risk then ([], [])
          else
            match env.ordersOf (some symbol) with
            | .error _ => ([], [])
            | .ok orders =>
                let stopOrders := orders.filter (fun o =>
                  o.reduceOnly && truthyQ (extractPriceMove o))
                if stopOrders.isEmpty then ([], [])
                else
                  let cancels := stopOrders.filterMap (fun o =>
                    if truthyS o.id then some o.id else none)
                  let exitSide := if p.side = "buy" then "sell" else "buy"
                  (cancels,
                   [{ symbol := symbol, type := "STOP_MARKET", side := exitSide,
                      stopPrice := some p.entry, closePosition := true }])

/-- `move_sl_to_entry`: apply `moveSlPos` to every snapshot position. -/
def move_sl_to_entry (env : SweepEnv) : List (Option String) × List OrderReq :=
  (positions_snapshot env.positions env.ordersOf).foldl (fun acc p =>
    let r := moveSlPos env p
    (acc.1 ++ r.1, acc.2 ++ r.2)) ([], [])

/-! ### The `run` pipeline -/

/-- `cancel_all_orders_for_pair`: cancel every open order of `symbol`
(fetch failure = none) and delete the pair's metadata file. -/
def cancel_all_orders_for_pair (ordersOf : Option String → Except Unit (List PyOrder))
    (symbol pair : String) (store : Store) : Store × List (Option String) :=
  let orders := match ordersOf (some symbol) with
    | .error _ => []
    | .ok os => os
  (store.filter (fun fr => fr.1 ≠ pair), orders.map (fun o => o.id))

/-- Insert or overwrite a key in an insertion-ordered dict/file store. -/
def storeUpsert (st : List (String × LimitRec)) (k : String) (v : LimitRec) :
    List (String × LimitRec) :=
  if st.any (fun e => e.1 = k) then
    st.map (fun e => if e.1 = k then (k, v) else e)
  else st ++ [(k, v)]

/-- Insert or overwrite in the `pos_map` dict (Python dict semantics:
last value wins, insertion order kept). -/
def posMapUpsert (st : List (String × SnapPos)) (k : String) (v : SnapPos) :
    List (String × SnapPos) :=
  if st.any (fun e => e.1 = k) then
    st.map (fun e => if e.1 = k then (k, v) else e)
  else st ++ [(k, v)]

/-- `pos_map = {p.get("pair"): p for p in payload["positions"] if p.get("pair")}`. -/
def buildPosMap (ps : List SnapPos) : List (String × SnapPos) :=
  ps.foldl (fun acc p => if p.pair = "" then acc else posMapUpsert acc p.pair p) []

/-- `pos_map.get(pair)`. -/
def posMapGet (m : List (String × SnapPos)) (k : String) : Option SnapPos :=
  (m.find? (fun e => e.1 = k)).map (fun e => e.2)

/-- Run environment: each exchange call the pipeline makes is one field
(in program order for the repeated position fetches); `createId sym` is
the id of a successfully created order on `sym` (`none` = the call
raised, creating nothing); `cancelOk` as in the sweeps.
`payloadCoins`/`payloadPositions` are the values `run` reads back from
`payload_full`; they are kept as free inputs so theorems quantify over
them, but in the composed program `payloadPositions` equals
`payloadGetPositions (build_payload ...)`, which is always `[]` because
`build_payload` never emits a `positions` key (see `BuiltPayload`). -/
structure RunEnv where
  sweep1Orders : Except Unit (List PyOrder) := .ok []
  sweep1Pos : Except Unit (List PyPos) := .ok []
  sweep2Orders : Except Unit (List PyOrder) := .ok []
  sweep2Pos : Except Unit (List PyPos) := .ok []
  sweep3Orders : Except Unit (List PyOrder) := .ok []
  sweep3Pos : Except Unit (List PyPos) := .ok []
  capital : ℚ := 0
  maxPos : ℕ := 10
  gatePos : Except Unit (List PyPos) := .ok []
  payloadCoins : List String := []
  payloadPositions : List SnapPos := []
  oracle : OracleJson := {}
  mkt : String → MktMeta := fun _ => { step := 1/10000, maxLev := 1, contract := 1 }
  livePos : Except Unit (List PyPos) := .ok []
  pairOrders : Option String → Except Unit (List PyOrder) := fun _ => .ok []
  createId : String → Option String := fun _ => none
  cancelOk : Option String → Bool := fun _ => true
  now : ℚ := 0
  expiryMin : ℚ := 30
  store : Store := []

/-- One record of `run`'s `placed` list. -/
structure Placed where
  pair : String
  side : String
  entry : ℚ
  sl : ℚ
  tp1 : ℚ
  tp2 : ℚ
  tp3 : ℚ
  qty : ℚ
  entryId : String
  expiry : ℚ
deriving DecidableEq

/-- The result record of `run` plus the effect traces of the call. -/
structure RunResult where
  live : Bool
  capital : ℚ
  coins : List EnrichedCoin
  placed : List Placed
  closed : List String
  movedSl : List (String × ℚ)
  closedPart : List (String × ℚ × ℚ)
  store : Store
  payloadBuilt : Bool
  oracleCalled : Bool
  created : List OrderReq
  cancels : List (Option String)

/-- The close loop of `run` (lines 322–344): for each pair of
`close_acts` with a mapped position and a buy/sell side, cancel all its
orders, delete its file, and close the position with a reduce-only
close-position market order. -/
def closeLoop (env : RunEnv) (posMap : List (String × SnapPos)) :
    List String → Store → List String × Store × List OrderReq × List (Option String)
  | [], st => ([], st, [], [])
  | pair :: rest, st =>
      match posMapGet posMap pair with
      | none => closeLoop env posMap rest st
      | some pos =>
          if pos.side = "buy" ∨ pos.side = "sell" then
            let sym := to_ccxt_symbol pair
            let ca := cancel_all_orders_for_pair env.pairOrders sym pair st
            let req : OrderReq :=
              { symbol := sym, type := "MARKET",
                side := if pos.side = "buy" then "sell" else "buy",
                reduceOnly := true, closePosition := true }
            let tail := closeLoop env posMap rest ca.1
            match env.createId sym with
            | some _ => (pair :: tail.1, tail.2.1, req :: tail.2.2.1, ca.2 ++ tail.2.2.2)
            | none => (tail.1, tail.2.1, tail.2.2.1, ca.2 ++ tail.2.2.2)
          else closeLoop env posMap rest st

/-- The `move_sl` loop of `run` (lines 346–362); `acts` holds
`(pair, sl)` instructions.  In the composed pipeline this list is
always empty because `parse_mini_actions` never emits a `move_sl` key. -/
def moveSlLoop (env : RunEnv) (posMap : List (String × SnapPos)) :
    List (String × Option ℚ) → List (String × ℚ) × List OrderReq × List (Option String)
  | [] => ([], [], [])
  | (pair, slOpt) :: rest =>
      let tail := moveSlLoop env posMap rest
      match posMapGet posMap pair, slOpt with
      | some pos, some sl =>
          let sym := to_ccxt_symbol pair
          let r := place_sl_tp (env.pairOrders (some sym)) sym pos.side
            (some pos.qty) sl (pyOrQ pos.tp1 pos.tp) pos.tp2 pos.tp3
          ((pair, sl) :: tail.1, r.2 ++ tail.2.1, r.1 ++ tail.2.2)
      | _, _ => tail

/-- The `close_partial` loop of `run` (lines 364–393). -/
def closePartLoop (env : RunEnv) (posMap : List (String × SnapPos)) :
    List (String × ℚ) → List (String × ℚ × ℚ) × List OrderReq
  | [] => ([], [])
  | (pair, pct) :: rest =>
      let tail := closePartLoop env posMap rest
      match posMapGet posMap pair with
      | none => tail
      | some pos =>
          if pos.side = "buy" ∨ pos.side = "sell" then
            let sym := to_ccxt_symbol pair
            let qty := round_step (pos.qty * pct / 100) (env.mkt sym).step
            let req : OrderReq :=
              { symbol := sym, type := "MARKET",
                side := if pos.side = "buy" then "sell" else "buy",
                qty := some qty, reduceOnly := true }
            match env.createId sym with
            | some _ => ((pair, pct, qty) :: tail.1, req :: tail.2)
            | none => tail
          else tail

/-- The order-placement loop of `run` (lines 395–456): skip pairs that
already hold a live position, cancel any existing orders for the pair,
submit the limit entry and persist the pending-entry record. -/
def placeLoop (env : RunEnv) (posPairsLive : List String) :
    List EnrichedCoin → Store → List Placed × Store × List OrderReq × List (Option String)
  | [], st => ([], st, [], [])
  | c :: rest, st =>
      let pair := strUpper c.pair
      if ¬(c.side = "buy" ∨ c.side = "sell") ∨ pair ∈ posPairsLive then
        placeLoop env posPairsLive rest st
      else
        let sym := to_ccxt_symbol pair
        let ca := cancel_all_orders_for_pair env.pairOrders sym pair st
        match env.createId sym with
        | some oid =>
            let expirySec : Option ℚ :=
              if env.expiryMin ≠ 0 then some (env.expiryMin * 60) else none
            let rcd : LimitRec :=
              { pair := some pair, order_id := some oid,
                side := some c.side, limit := some c.entry, qty := some c.qty,
                sl := some c.sl, tp1 := some c.tp1, tp2 := some c.tp2,
                tp3 := some c.tp3, expiry := expirySec, ts := some env.now }
            let req : OrderReq :=
              { symbol := sym, type := "limit", side := c.side,
                qty := some c.qty, price := some c.entry, reduceOnly := false }
            let tail := placeLoop env posPairsLive rest (storeUpsert ca.1 pair rcd)
            ({ pair := pair, side := c.side, entry := c.entry, sl := c.sl,
               tp1 := c.tp1, tp2 := c.tp2, tp3 := c.tp3, qty := c.qty,
               entryId := oid, expiry := env.expiryMin } :: tail.1,
             tail.2.1, req :: tail.2.2.1, ca.2 ++ tail.2.2.2)
        | none =>
            let tail := placeLoop env posPairsLive rest ca.1
            (tail.1, tail.2.1, tail.2.2.1, ca.2 ++ tail.2.2.2)

/-- `run(run_live, limit)`: maintenance sweeps (live only), balance,
the max-open-positions gate, payload emptiness check, oracle call and
parse, enrichment, the close / move-sl / partial-close loops, and order
placement.  `close_acts` starts from `acts.get("close", [])`, a key
`parse_mini_actions` never produces, and any non-empty `close_all`
appends every `pos_map` pair; `move_sl` is likewise never produced. -/
def run (runLive : Bool) (env : RunEnv) : RunResult :=
  let s1 := if runLive then
      cancel_unpositioned_limits env.now 1800 env.sweep1Orders env.sweep1Pos
        env.store env.cancelOk
    else (env.store, [])
  let store2 := if runLive then
      remove_unmapped_limit_files env.sweep2Orders env.sweep2Pos s1.1
    else s1.1
  let canc3 := if runLive then
      cancel_unpositioned_stops env.sweep3Orders env.sweep3Pos
    else []
  let capital := env.capital
  if runLive ∧ env.maxPos ≤ (getOpenPositionPairs env.gatePos).length then
    { live := runLive, capital := capital, coins := [], placed := [],
      closed := [], movedSl := [], closedPart := [], store := store2,
      payloadBuilt := false, oracleCalled := false, created := [],
      cancels := s1.2 ++ canc3 }
  else if env.payloadCoins = [] ∧ env.payloadPositions = [] then
    { live := runLive, capital := capital, coins := [], placed := [],
      closed := [], movedSl := [], closedPart := [], store := store2,
      payloadBuilt := true, oracleCalled := false, created := [],
      cancels := s1.2 ++ canc3 }
  else
    let acts := parse_mini_actions env.oracle
    let coins := enrich_tp_qty env.mkt acts.coins capital
    let posMap := buildPosMap env.payloadPositions
    let closeFromKey : List String := []
    let closeActs := if acts.close_all = [] then closeFromKey
      else closeFromKey ++ (posMap.map Prod.fst).filter (fun p => p ∉ closeFromKey)
    let moveSlActs : List (String × Option ℚ) := []
    let closePartActs := acts.close_part.filter (fun cp => cp.1 ≠ "")
    if runLive then
      let cl := closeLoop env posMap closeActs store2
      let ms := moveSlLoop env posMap moveSlActs
      let cp := closePartLoop env posMap closePartActs
      let pl := if coins.isEmpty then ([], cl.2.1, [], [])
        else placeLoop env (getOpenPositionPairs env.livePos) coins cl.2.1
      { live := runLive, capital := capital, coins := coins, placed := pl.1,
        closed := cl.1, movedSl := ms.1, closedPart := cp.1, store := pl.2.1,
        payloadBuilt := true, oracleCalled := true,
        created := cl.2.2.1 ++ ms.2.1 ++ cp.2 ++ pl.2.2.1,
        cancels := s1.2 ++ canc3 ++ cl.2.2.2 ++ ms.2.2 ++ pl.2.2.2 }
    else
      { live := runLive, capital := capital, coins := coins, placed := [],
        closed := [], movedSl := [], closedPart := [], store := store2,
        payloadBuilt := true, oracleCalled := true, created := [],
        cancels := s1.2 ++ canc3 }

/-- The payload dict returned by `build_payload`
(`src/payload_builder.py`, final return): it is built as
`drop_empty({"time": ..., "eth": ..., "coins": [...]})`, so the only
keys it can carry are `time`, `eth` and `coins`.  `positionsKey` models
a `"positions"` entry of that dict; since no line of `build_payload`
writes one, every value the function returns has `positionsKey = none`,
and `payload_full.get("positions", [])` in `run` is
`positionsKey.getD []`.  (`RunEnv.payloadPositions` keeps this read as
a free input so theorems can quantify over it; `build_payload` below
pins its value in the composed pipeline.) -/
structure BuiltPayload where
  time : String
  ethKeys : List String
  coins : List String
  positionsKey : Option (List SnapPos)

/-- `build_payload(exchange, limit)` as returned to `run`: the snapshot
of open positions it computes is used only to exclude pairs from coin
selection and is never placed in the returned dict, so `positionsKey`
is `none` on every return value.  The `time`/`eth`/`coins` contents are
irrelevant to the close pipeline and are taken as inputs. -/
def build_payload (t : String) (eth : List String) (cs : List String) : BuiltPayload :=
  { time := t, ethKeys := eth, coins := cs, positionsKey := none }

/-- `payload_full.get("positions", [])`. -/
def payloadGetPositions (p : BuiltPayload) : List SnapPos :=
  p.positionsKey.getD []

/-! ## Concrete test fixtures used by witnesses and counterexamples -/

/-- A reduce-only stop order at 90 (C5 scenarios). -/
def c5stop : PyOrder := { id := some "s1", stopPrice := some 90, reduceOnly := true }

/-- A long position entered at 100 (C5 scenarios). -/
def c5pos : PyPos := { symbol := some "BTC/USDT", contracts := some 1, entryPrice := some 100 }

/-- Exchange state for the C5 counterexample: long from 100 with stop at
90, last price 85 — an adverse move of 1.5 risk units. -/
def c5Env : SweepEnv :=
  { positions := .ok [c5pos],
    ordersOf := fun s => if s = some "BTC/USDT" then .ok [c5stop] else .ok [],
    ticker := fun s => if s = "BTC/USDT" then some 85 else none }

/-- The same exchange state with last price 95 (inside one risk unit). -/
def c5near : SweepEnv :=
  { positions := .ok [c5pos],
    ordersOf := fun s => if s = some "BTC/USDT" then .ok [c5stop] else .ok [],
    ticker := fun s => if s = "BTC/USDT" then some 95 else none }

/-- The snapshot `positions_snapshot` derives from `c5pos`/`c5stop`. -/
def c5snap : SnapPos :=
  { pair := "BTCUSDT", side := "buy", entry := 100, qty := 1, sl := some 90 }

/-- Run environment for the C1 scenario: a BTCUSDT position is open on
the exchange, the payload comes from `build_payload` (so it carries no
`positions` key and `payloadPositions` is the default `[]`), the coin
list is non-empty (so the no-coins early exit does not fire), the
parsed oracle response carries a `close_all` entry naming BTCUSDT, and
every order creation would succeed. -/
def inertEnv : RunEnv :=
  { payloadCoins := ["BTCUSDT"],
    oracle := { close_all := [{ pair := some "BTCUSDT" }] },
    gatePos := .ok [{ symbol := some "BTC/USDT", contracts := some 1 }],
    livePos := .ok [{ symbol := some "BTC/USDT", contracts := some 1 }],
    createId := fun _ => some "id1" }

/-- A position dict on symbol `s` holding one contract. -/
def gpos (s : String) : PyPos := { symbol := some s, contracts := some 1 }

/-- Run environment for the C9 witness: ten open positions at the
default `MAX_OPEN_POSITIONS = 10` limit. -/
def gateEnv : RunEnv :=
  { maxPos := 10,
    gatePos := .ok [gpos "C0/USDT", gpos "C1/USDT", gpos "C2/USDT", gpos "C3/USDT",
                    gpos "C4/USDT", gpos "C5/USDT", gpos "C6/USDT", gpos "C7/USDT",
                    gpos "C8/USDT", gpos "C9/USDT"] }

/-- A pending-entry record whose pair still has a live order (C6). -/
def c6rec : LimitRec := { pair := some "BTCUSDT", order_id := some "keep1" }

/-- A live open limit order for BTC/USDT (C6). -/
def c6live : PyOrder := { id := some "keep1", symbol := some "BTC/USDT", type := some "limit" }

/-- A stale (t = 1 s) open limit order for BTC/USDT (C6). -/
def c6stale : PyOrder :=
  { id := some "s1", symbol := some "BTC/USDT", type := some "limit", timestamp := some 1 }

/-- A fresh (t = 1900 s) open limit order for BTC/USDT (C6). -/
def c6fresh : PyOrder :=
  { id := some "f1", symbol := some "BTC/USDT", type := some "limit", timestamp := some 1900 }

/-- An expired pending-entry record: 60 s expiry, created at t = 100 (C7). -/
def c7rec : LimitRec :=
  { pair := some "BTCUSDT", order_id := some "o1", expiry := some 60, ts := some 100 }

/-- A coin proposal whose tp1 is on the wrong side of entry (C2). -/
def c2item : CoinJson :=
  { pair := some "BTCUSDT", entry := some 100, sl := some 90, tp1 := some 95 }

/-! ## Helper lemmas -/

/-- `roundHalfEven` fixes integers. -/
theorem roundHalfEven_intCast (z : ℤ) : roundHalfEven (z : ℚ) = z := by
  unfold roundHalfEven
  norm_num

/-- `rfloat` fixes any rational that already has at most `nd`
significant decimal digits (witnessed by an integer scaling). -/
theorem rfloat_eq_self (q : ℚ) (nd : ℕ) (z : ℤ)
    (hz : q * (10:ℚ) ^ ((nd:ℤ) - 1 - qLog10 q) = (z:ℚ)) : rfloat q nd = q := by
  unfold rfloat
  by_cases h0 : q = 0
  · simp [h0]
  · simp only [h0, if_false]
    have hexp : -(qLog10 q - ((nd:ℤ) - 1)) = (nd:ℤ) - 1 - qLog10 q := by ring
    rw [hexp, hz, roundHalfEven_intCast, ← hz]
    rw [mul_assoc, ← zpow_add₀ (by norm_num : (10:ℚ) ≠ 0)]
    have h2 : ((nd:ℤ) - 1 - qLog10 q) + (qLog10 q - ((nd:ℤ) - 1)) = 0 := by ring
    rw [h2, zpow_zero, mul_one]

/-- `qLog10` agrees with the natural base-10 logarithm on positive
naturals. -/
theorem qLog10_nat (n : ℕ) (h1 : 1 ≤ n) : qLog10 (n:ℚ) = natLog10 n := by
  have hne : (n:ℚ) ≠ 0 := Nat.cast_ne_zero.mpr (Nat.one_le_iff_ne_zero.mp h1)
  have h1q : (1:ℚ) ≤ (n:ℚ) := by exact_mod_cast h1
  have habs : |(n:ℚ)| = (n:ℚ) := abs_of_nonneg (by positivity)
  unfold qLog10
  rw [if_neg hne]
  simp only [habs, if_pos h1q, Int.floor_natCast, Int.toNat_natCast]

/-- `rfloat 100 6 = 100`. -/
theorem rfloat_100 : rfloat 100 6 = 100 := by
  have hl : qLog10 (100:ℚ) = 2 := by
    have h := qLog10_nat 100 (by norm_num)
    have h2 : natLog10 100 = 2 := by decide
    rw [h2] at h
    exact_mod_cast h
  apply rfloat_eq_self 100 6 100000
  rw [hl]
  norm_num

/-- `rfloat 90 6 = 90`. -/
theorem rfloat_90 : rfloat 90 6 = 90 := by
  have hl : qLog10 (90:ℚ) = 1 := by
    have h := qLog10_nat 90 (by norm_num)
    have h2 : natLog10 90 = 1 := by decide
    rw [h2] at h
    exact_mod_cast h
  apply rfloat_eq_self 90 6 900000
  rw [hl]
  norm_num

/-- `rfloat 1 6 = 1`. -/
theorem rfloat_1 : rfloat 1 6 = 1 := by
  have hl : qLog10 (1:ℚ) = 0 := by
    have h := qLog10_nat 1 (by norm_num)
    have h2 : natLog10 1 = 0 := by decide
    rw [h2] at h
    exact_mod_cast h
  apply rfloat_eq_self 1 6 100000
  rw [hl]
  norm_num

/-- Flooring to a positive step never increases the quantity. -/
theorem round_step_le_self (q step : ℚ) (hstep : 0 < step) :
    round_step q step ≤ q := by
  unfold round_step
  rw [if_neg (not_le.mpr hstep)]
  calc (⌊q / step⌋ : ℚ) * step ≤ q / step * step :=
        mul_le_mul_of_nonneg_right (Int.floor_le _) hstep.le
    _ = q := div_mul_cancel₀ q hstep.ne'

/-- Flooring to a positive step is monotone. -/
theorem round_step_mono {a b : ℚ} (step : ℚ) (hstep : 0 < step) (h : a ≤ b) :
    round_step a step ≤ round_step b step := by
  unfold round_step
  simp only [if_neg (not_le.mpr hstep)]
  have hfl : (⌊a / step⌋ : ℚ) ≤ (⌊b / step⌋ : ℚ) := by
    exact_mod_cast Int.floor_le_floor ((div_le_div_iff_of_pos_right hstep).mpr h)
  exact mul_le_mul_of_nonneg_right hfl hstep.le

/-- Flooring a nonnegative quantity to a positive step stays
nonnegative. -/
theorem round_step_nonneg {q : ℚ} (step : ℚ) (hstep : 0 < step) (hq : 0 ≤ q) :
    0 ≤ round_step q step := by
  unfold round_step
  rw [if_neg (not_le.mpr hstep)]
  have : (0:ℚ) ≤ (⌊q / step⌋ : ℚ) := by
    exact_mod_cast Int.floor_nonneg.mpr (div_nonneg hq hstep.le)
  exact mul_nonneg this hstep.le

/-! ## C3 / C4: the Position Sizer (`calc_qty`) -/

/-- C3: for every input (with positive step, entry and contract size),
`calc_qty` returns 0 when `|entry - sl| ≤ 0`, `risk_frac ≤ 0` or
`capital ≤ 0`, and otherwise returns
`floor_to_step(min(capital*risk_frac/|entry-sl|,
capital*max_leverage/(entry*contract_size)), step)`; equivalently, it
equals the spec's sizing formula `spec_calc_qty`. -/
theorem calc_qty_spec_equiv (capital risk_frac entry sl step max_leverage contract_size : ℚ)
    (hstep : 0 < step) (hentry : 0 < entry) (hcontract : 0 < contract_size) :
    calc_qty capital risk_frac entry sl step max_leverage contract_size
      = spec_calc_qty capital risk_frac entry sl step max_leverage contract_size
  ∧ (|entry - sl| ≤ 0 ∨ risk_frac ≤ 0 ∨ capital ≤ 0 →
      calc_qty capital risk_frac entry sl step max_leverage contract_size = 0)
  ∧ (¬(|entry - sl| ≤ 0 ∨ risk_frac ≤ 0 ∨ capital ≤ 0) →
      calc_qty capital risk_frac entry sl step max_leverage contract_size
        = floor_to_step (min (capital * risk_frac / |entry - sl|)
            (capital * max_leverage / (entry * contract_size))) step) := by
  have hns : ¬ step ≤ 0 := not_le.mpr hstep
  refine ⟨?_, ?_, ?_⟩
  · simp only [calc_qty, spec_calc_qty]
    split_ifs with hg
    · rfl
    · unfold round_step floor_to_step
      rw [if_neg hns]
  · intro h
    simp only [calc_qty]
    rw [if_pos h]
  · intro h
    simp only [calc_qty]
    rw [if_neg h]
    unfold round_step floor_to_step
    rw [if_neg hns]

/-- Witness for C3 at a concrete input. -/
theorem calc_qty_spec_equiv_witness :
    calc_qty 1000 (1/100) 100 90 1 20 1 = spec_calc_qty 1000 (1/100) 100 90 1 20 1
  ∧ (|(100:ℚ) - 90| ≤ 0 ∨ (1:ℚ)/100 ≤ 0 ∨ (1000:ℚ) ≤ 0 →
      calc_qty 1000 (1/100) 100 90 1 20 1 = 0)
  ∧ (¬(|(100:ℚ) - 90| ≤ 0 ∨ (1:ℚ)/100 ≤ 0 ∨ (1000:ℚ) ≤ 0) →
      calc_qty 1000 (1/100) 100 90 1 20 1
        = floor_to_step (min (1000 * (1/100) / |(100:ℚ) - 90|)
            (1000 * 20 / (100 * 1))) 1) :=
  calc_qty_spec_equiv 1000 (1/100) 100 90 1 20 1 (by norm_num) (by norm_num) (by norm_num)

/-- C4: holding the other parameters fixed (positive step, entry,
contract size and leverage), `calc_qty` is non-decreasing in capital,
non-increasing in the distance `|entry - sl|`, always an integer
multiple of the step, and never exceeds the leverage-implied ceiling
`capital*max_leverage/(entry*contract_size)` for positive capital. -/
theorem calc_qty_shape (risk_frac entry step max_leverage contract_size : ℚ)
    (hstep : 0 < step) (hentry : 0 < entry) (hcontract : 0 < contract_size)
    (hlev : 0 < max_leverage) :
    (∀ c₁ c₂ sl, c₁ ≤ c₂ →
       calc_qty c₁ risk_frac entry sl step max_leverage contract_size
         ≤ calc_qty c₂ risk_frac entry sl step max_leverage contract_size)
  ∧ (∀ capital sl₁ sl₂, 0 < |entry - sl₁| → |entry - sl₁| ≤ |entry - sl₂| →
       calc_qty capital risk_frac entry sl₂ step max_leverage contract_size
         ≤ calc_qty capital risk_frac entry sl₁ step max_leverage contract_size)
  ∧ (∀ capital sl, ∃ k : ℤ,
       calc_qty capital risk_frac entry sl step max_leverage contract_size = k * step)
  ∧ (∀ capital sl, 0 < capital →
       calc_qty capital risk_frac entry sl step max_leverage contract_size
         ≤ capital * max_leverage / (entry * contract_size)) := by
  have hns : ¬ step ≤ 0 := not_le.mpr hstep
  have hec : 0 < entry * contract_size := mul_pos hentry hcontract
  refine ⟨?_, ?_, ?_, ?_⟩
  · intro c₁ c₂ sl h
    simp only [calc_qty]
    by_cases hd : |entry - sl| ≤ 0
    · rw [if_pos (Or.inl hd), if_pos (Or.inl hd)]
    by_cases hr : risk_frac ≤ 0
    · rw [if_pos (Or.inr (Or.inl hr)), if_pos (Or.inr (Or.inl hr))]
    by_cases hc1 : c₁ ≤ 0
    · rw [if_pos (Or.inr (Or.inr hc1))]
      by_cases hc2 : c₂ ≤ 0
      · rw [if_pos (Or.inr (Or.inr hc2))]
      · rw [if_neg (fun hor => hor.elim hd (fun h2 => h2.elim hr hc2))]
        push_neg at hd hr hc2
        apply round_step_nonneg step hstep
        apply le_min
        · positivity
        · positivity
    · have hc2 : ¬ c₂ ≤ 0 := fun hc2 => hc1 (le_trans h hc2)
      rw [if_neg (fun hor => hor.elim hd (fun h2 => h2.elim hr hc1)),
          if_neg (fun hor => hor.elim hd (fun h2 => h2.elim hr hc2))]
      push_neg at hd hr hc1 hc2
      apply round_step_mono step hstep
      apply min_le_min
      · gcongr
      · gcongr
  · intro capital sl₁ sl₂ h1 h12
    have h2 : 0 < |entry - sl₂| := lt_of_lt_of_le h1 h12
    simp only [calc_qty]
    by_cases hr : risk_frac ≤ 0
    · rw [if_pos (Or.inr (Or.inl hr)), if_pos (Or.inr (Or.inl hr))]
    by_cases hc : capital ≤ 0
    · rw [if_pos (Or.inr (Or.inr hc)), if_pos (Or.inr (Or.inr hc))]
    rw [if_neg (fun hor => hor.elim (not_le.mpr h2) (fun hh => hh.elim hr hc)),
        if_neg (fun hor => hor.elim (not_le.mpr h1) (fun hh => hh.elim hr hc))]
    push_neg at hr hc
    apply round_step_mono step hstep
    apply min_le_min _ le_rfl
    gcongr
  · intro capital sl
    simp only [calc_qty]
    split_ifs
    · exact ⟨0, by ring⟩
    · refine ⟨⌊min (capital * risk_frac / |entry - sl|)
        (capital * max_leverage / (entry * contract_size)) / step⌋, ?_⟩
      unfold round_step
      rw [if_neg hns]
  · intro capital sl hcap
    simp only [calc_qty]
    split_ifs
    · positivity
    · calc round_step (min (capital * risk_frac / |entry - sl|)
            (capital * max_leverage / (entry * contract_size))) step
          ≤ min (capital * risk_frac / |entry - sl|)
            (capital * max_leverage / (entry * contract_size)) :=
            round_step_le_self _ step hstep
        _ ≤ capital * max_leverage / (entry * contract_size) := min_le_right _ _

/-- Witness for C4: capital monotonicity at a concrete input. -/
theorem calc_qty_shape_witness :
    calc_qty 1000 (1/100) 100 90 1 20 1 ≤ calc_qty 2000 (1/100) 100 90 1 20 1 :=
  (calc_qty_shape (1/100) 100 1 20 1 (by norm_num) (by norm_num) (by norm_num)
    (by norm_num)).1 1000 2000 90 (by norm_num)


/-! ## C10: the 30/50/20 take-profit split of `_place_sl_tp` -/

/-- C10: whenever `_place_sl_tp` is called with a quantity and at least
one of tp2/tp3 present, the three take-profit legs are sized
`0.3*qty`, `0.5*qty` and `qty - 0.3*qty - 0.5*qty`; in exact arithmetic
the legs sum to the full quantity and none is negative for `qty ≥ 0`,
and the creation requests carry exactly those quantities. -/
theorem place_sl_tp_split (existing : Except Unit (List PyOrder)) (symbol side : String)
    (q sl : ℚ) (tp1 : Option ℚ) (tp2 tp3 : Option ℚ) (h : tp2 ≠ none ∨ tp3 ≠ none) :
    (legQtys q).1 + (legQtys q).2.1 + (legQtys q).2.2 = q
  ∧ (0 ≤ q → 0 ≤ (legQtys q).1 ∧ 0 ≤ (legQtys q).2.1 ∧ 0 ≤ (legQtys q).2.2)
  ∧ (place_sl_tp existing symbol side (some q) sl tp1 tp2 tp3).2 =
      [{ symbol := symbol, type := "STOP_MARKET",
         side := if side = "buy" then "sell" else "buy",
         stopPrice := some sl, closePosition := true },
       { symbol := symbol, type := "LIMIT",
         side := if side = "buy" then "sell" else "buy",
         qty := some (legQtys q).1, price := tp1, reduceOnly := true }] ++
      (match tp2 with
       | some t2 => [{ symbol := symbol, type := "LIMIT",
                       side := if side = "buy" then "sell" else "buy",
                       qty := some (legQtys q).2.1, price := some t2, reduceOnly := true }]
       | none => []) ++
      (match tp3 with
       | some t3 => [{ symbol := symbol, type := "TAKE_PROFIT_MARKET",
                       side := if side = "buy" then "sell" else "buy",
                       qty := some (legQtys q).2.2, stopPrice := some t3, reduceOnly := true }]
       | none => []) := by
  refine ⟨by simp only [legQtys]; ring, ?_, ?_⟩
  · intro hq
    refine ⟨mul_nonneg hq (by norm_num), mul_nonneg hq (by norm_num), ?_⟩
    have he : q - q * (3/10) - q * (1/2) = q * (1/5) := by ring
    simp only [legQtys, he]
    exact mul_nonneg hq (by norm_num)
  · have hne : ¬(tp2 = none ∧ tp3 = none) := by
      rcases h with h | h
      · exact fun hc => h hc.1
      · exact fun hc => h hc.2
    simp only [place_sl_tp, if_neg hne]
    cases tp2 <;> cases tp3 <;> rfl

/-- Witness for C10 at a concrete input (qty 10, tp2 present). -/
theorem place_sl_tp_split_witness :
    (legQtys 10).1 + (legQtys 10).2.1 + (legQtys 10).2.2 = 10 :=
  (place_sl_tp_split (.ok []) "BTC/USDT" "buy" 10 90 (some 105) (some 110) none
    (Or.inl (by simp))).1


/-! ## C2: side inference and take-profit validation -/

/-- C2 counterexample: `infer_side` is not independent of the
take-profit — at `entry = 1 > sl = 0` with `tp = 1` (not strictly
beyond entry) it returns `none`, not `"buy"`; so the claim's
biconditional fails. -/
theorem infer_side_not_tp_independent :
    ¬ (∀ entry sl : ℚ, ∀ tp : Option ℚ, entry ≠ sl →
        ((infer_side entry sl tp = some "buy" ↔ sl < entry) ∧
         (infer_side entry sl tp = some "sell" ↔ entry < sl)))
  ∧ infer_side 1 0 (some 1) = none ∧ (0:ℚ) < 1 := by
  refine ⟨fun hclaim => ?_, by decide, by decide⟩
  have hb := (hclaim 1 0 (some 1) (by decide)).1.mpr (by decide)
  have hn : infer_side 1 0 (some 1) = none := by decide
  rw [hn] at hb
  exact Option.noConfusion hb


/-- C2 amended: with no take-profit, `infer_side` returns `buy` iff
`entry > sl` and `sell` iff `entry < sl`; with a take-profit strictly
beyond entry in the side's favorable direction it returns that side,
and with one not strictly beyond it returns `none`; and
`parse_mini_actions` drops any proposal whose supplied take-profit is
not strictly beyond entry in the inferred side's favorable direction. -/
theorem infer_side_amended (entry sl t : ℚ) (hne : entry ≠ sl) :
    (infer_side entry sl none = some "buy" ↔ sl < entry)
  ∧ (infer_side entry sl none = some "sell" ↔ entry < sl)
  ∧ (sl < entry → entry < t → infer_side entry sl (some t) = some "buy")
  ∧ (entry < sl → t < entry → infer_side entry sl (some t) = some "sell")
  ∧ (sl < entry → t ≤ entry → infer_side entry sl (some t) = none)
  ∧ (entry < sl → entry ≤ t → infer_side entry sl (some t) = none)
  ∧ (∀ item : CoinJson, item.entry = some entry → item.sl = some sl →
      ((sl < entry ∧ ((∃ v, item.tp1 = some v ∧ v ≤ entry) ∨
                      (∃ v, item.tp2 = some v ∧ v ≤ entry) ∨
                      (∃ v, item.tp3 = some v ∧ v ≤ entry)))
       ∨ (entry < sl ∧ ((∃ v, item.tp1 = some v ∧ entry ≤ v) ∨
                        (∃ v, item.tp2 = some v ∧ entry ≤ v) ∨
                        (∃ v, item.tp3 = some v ∧ entry ≤ v)))) →
      parseCoinItem item = none) := by
  refine ⟨?_, ?_, ?_, ?_, ?_, ?_, ?_⟩
  · simp only [infer_side]
    constructor
    · intro h
      rcases lt_trichotomy sl entry with hlt | heq | hgt
      · exact hlt
      · exact absurd heq.symm hne
      · rw [if_neg (lt_asymm hgt), if_pos hgt] at h
        exact absurd h (by decide)
    · intro hlt
      rw [if_pos hlt]
  · simp only [infer_side]
    constructor
    · intro h
      rcases lt_trichotomy entry sl with hlt | heq | hgt
      · exact hlt
      · exact absurd heq hne
      · rw [if_pos hgt] at h
        exact absurd h (by decide)
    · intro hlt
      rw [if_neg (lt_asymm hlt), if_pos hlt]
  · intro h1 h2
    simp only [infer_side]
    rw [if_pos ⟨h2, h1⟩]
  · intro h1 h2
    simp only [infer_side]
    rw [if_neg (fun hc => (lt_asymm h1) hc.2), if_pos ⟨h2, h1⟩]
  · intro h1 h2
    simp only [infer_side]
    rw [if_neg (fun hc => (not_lt_of_le h2) hc.1),
        if_neg (fun hc => (lt_asymm h1) hc.2)]
  · intro h1 h2
    simp only [infer_side]
    rw [if_neg (fun hc => (lt_asymm h1) hc.2),
        if_neg (fun hc => (not_lt_of_le h2) hc.1)]
  · intro item he hs hbad
    simp only [parseCoinItem, he, hs]
    by_cases hp : normPairField item.pair = ""
    · rw [if_pos hp]
    rw [if_neg hp, if_neg hne]
    by_cases hrisk : riskRejected item.risk = true
    · rw [if_pos hrisk]
    rw [if_neg hrisk]
    rcases hbad with ⟨hlt, hv⟩ | ⟨hlt, hv⟩
    · have hside : (if entry > sl then "buy" else "sell") = "buy" := if_pos hlt
      rw [hside]
      rcases hv with ⟨v, hv1, hvle⟩ | ⟨v, hv2, hvle⟩ | ⟨v, hv3, hvle⟩
      · rw [if_pos (by simp [tpRejected, hv1, hvle])]
      · by_cases h1 : tpRejected "buy" entry item.tp1 = true
        · rw [if_pos h1]
        · rw [if_neg h1, if_pos (by simp [tpRejected, hv2, hvle])]
      · by_cases h1 : tpRejected "buy" entry item.tp1 = true
        · rw [if_pos h1]
        · rw [if_neg h1]
          by_cases h2 : tpRejected "buy" entry item.tp2 = true
          · rw [if_pos h2]
          · rw [if_neg h2, if_pos (by simp [tpRejected, hv3, hvle])]
    · have hside : (if entry > sl then "buy" else "sell") = "sell" :=
        if_neg (not_lt_of_gt hlt)
      rw [hside]
      rcases hv with ⟨v, hv1, hvle⟩ | ⟨v, hv2, hvle⟩ | ⟨v, hv3, hvle⟩
      · rw [if_pos (by simp [tpRejected, hv1, hvle])]
      · by_cases h1 : tpRejected "sell" entry item.tp1 = true
        · rw [if_pos h1]
        · rw [if_neg h1, if_pos (by simp [tpRejected, hv2, hvle])]
      · by_cases h1 : tpRejected "sell" entry item.tp1 = true
        · rw [if_pos h1]
        · rw [if_neg h1]
          by_cases h2 : tpRejected "sell" entry item.tp2 = true
          · rw [if_pos h2]
          · rw [if_neg h2, if_pos (by simp [tpRejected, hv3, hvle])]


/-- Witness for C2 at `entry=100, sl=90, tp=95` (the spec's own
example of a rejected proposal). -/
theorem infer_side_amended_witness :
    infer_side 100 90 (some 95) = none ∧ parseCoinItem c2item = none :=
  ⟨(infer_side_amended 100 90 95 (by norm_num)).2.2.2.2.1 (by norm_num) (by norm_num),
   (infer_side_amended 100 90 95 (by norm_num)).2.2.2.2.2.2 c2item rfl rfl
     (Or.inl ⟨by norm_num, Or.inl ⟨95, rfl, by norm_num⟩⟩)⟩


/-! ## C7 / C8: the expiry sweep (`cancel_expired_limit_orders`) -/

/-- The surviving store of the expiry sweep: exactly the records that
lack a truthy field or whose expiry has not elapsed. -/
theorem cancel_expired_fst (now : ℚ) (fetch : String → Option String) (store : Store) :
    (cancel_expired_limit_orders now fetch store).1
      = store.filter (fun fr => !(recReady fr.2 && recElapsed now fr.2)) := by
  induction store with
  | nil => rfl
  | cons fr rest ih =>
      simp only [cancel_expired_limit_orders, List.filter_cons]
      by_cases h1 : recReady fr.2 = true
      · by_cases h2 : recElapsed now fr.2 = true
        · have hstep : (expiryStep now fetch fr).1 = none := by
            simp only [expiryStep, h1, h2, not_true, if_false]
            rcases hf : fetch (fr.2.order_id.getD "") with _ | s
            · rfl
            · simp only []
              split_ifs <;> rfl
          simp [hstep, h1, h2, ih]
        · have hstep : (expiryStep now fetch fr).1 = some fr := by
            simp [expiryStep, h1, h2]
          simp [hstep, h1, h2, ih]
      · have hstep : (expiryStep now fetch fr).1 = some fr := by
          simp [expiryStep, h1]
        simp [hstep, h1, ih]


/-- The cancel calls of the expiry sweep: exactly the order ids of the
expired, field-complete records whose order the exchange does not
already report closed. -/
theorem cancel_expired_snd (now : ℚ) (fetch : String → Option String) (store : Store) :
    (cancel_expired_limit_orders now fetch store).2
      = (store.filter (fun fr => recReady fr.2 && recElapsed now fr.2 &&
          !(decide (fetch (fr.2.order_id.getD "") = some "closed")))).filterMap
          (fun fr => fr.2.order_id) := by
  induction store with
  | nil => rfl
  | cons fr rest ih =>
      simp only [cancel_expired_limit_orders, List.filter_cons]
      by_cases h1 : recReady fr.2 = true
      · by_cases h2 : recElapsed now fr.2 = true
        · by_cases h3 : fetch (fr.2.order_id.getD "") = some "closed"
          · have hstep : (expiryStep now fetch fr).2 = [] := by
              simp [expiryStep, h1, h2, h3]
            simp [hstep, h1, h2, h3, ih]
          · have hstep : (expiryStep now fetch fr).2 = [fr.2.order_id.getD ""] := by
              simp only [expiryStep, h1, h2, not_true, if_false]
              rcases hf : fetch (fr.2.order_id.getD "") with _ | s
              · rfl
              · rw [hf] at h3
                simp only []
                rw [if_neg (fun hc => h3 (by rw [hc]))]
            have hoid : ∃ s, fr.2.order_id = some s ∧ s ≠ "" := by
              have := h1
              simp only [recReady, Bool.and_eq_true, truthyS] at this
              rcases hor : fr.2.order_id with _ | s
              · rw [hor] at this
                simp at this
              · exact ⟨s, rfl, by
                  rw [hor] at this
                  simpa using this.1.2⟩
            rcases hoid with ⟨s, hs, hsne⟩
            have h3s : ¬ fetch s = some "closed" := by
              simpa [hs] using h3
            simp [hstep, h1, h2, h3s, ih, List.filterMap_cons, hs]
        · have hstep : (expiryStep now fetch fr).2 = [] := by
            simp [expiryStep, h1, h2]
          simp [hstep, h1, h2, ih]
      · have hstep : (expiryStep now fetch fr).2 = [] := by
          simp [expiryStep, h1]
        simp [hstep, h1, ih]


/-- C7: every field-complete pending-entry record whose expiry has
elapsed is deleted — with a cancel call for its order unless the
exchange reports the order closed (then no cancel for it is emitted,
by the trace characterisation) — and records not expired or missing a
truthy expiry/ts/order-id/pair field are left untouched. -/
theorem cancel_expired_per_record (now : ℚ) (fetch : String → Option String)
    (store : Store) (stem : String) (r : LimitRec) (hmem : (stem, r) ∈ store) :
    ((cancel_expired_limit_orders now fetch store).1
      = store.filter (fun fr => !(recReady fr.2 && recElapsed now fr.2)))
  ∧ ((cancel_expired_limit_orders now fetch store).2
      = (store.filter (fun fr => recReady fr.2 && recElapsed now fr.2 &&
          !(decide (fetch (fr.2.order_id.getD "") = some "closed")))).filterMap
          (fun fr => fr.2.order_id))
  ∧ (recReady r = true → recElapsed now r = true →
      (stem, r) ∉ (cancel_expired_limit_orders now fetch store).1)
  ∧ (recReady r = true → recElapsed now r = true →
      ¬ fetch (r.order_id.getD "") = some "closed" →
      r.order_id.getD "" ∈ (cancel_expired_limit_orders now fetch store).2)
  ∧ (¬(recReady r = true ∧ recElapsed now r = true) →
      (stem, r) ∈ (cancel_expired_limit_orders now fetch store).1) := by
  refine ⟨cancel_expired_fst now fetch store, cancel_expired_snd now fetch store, ?_, ?_, ?_⟩
  · intro h1 h2
    rw [cancel_expired_fst]
    simp [List.mem_filter, h1, h2]
  · intro h1 h2 h3
    rw [cancel_expired_snd]
    apply List.mem_filterMap.mpr
    refine ⟨(stem, r), List.mem_filter.mpr ⟨hmem, ?_⟩, ?_⟩
    · simp [h1, h2, h3]
    · have h4 := h1
      simp only [recReady, Bool.and_eq_true] at h4
      rcases ho : r.order_id with _ | s
      · rw [ho] at h4
        simp [truthyS] at h4
      · simp [ho]
  · intro hnot
    rw [cancel_expired_fst]
    apply List.mem_filter.mpr
    refine ⟨hmem, ?_⟩
    cases hA : recReady r <;> cases hB : recElapsed now r <;> simp_all


/-- Witness for C7: an expired record is removed and its order
cancelled. -/
theorem cancel_expired_per_record_witness :
    ("BTCUSDT", c7rec) ∉ (cancel_expired_limit_orders 200 (fun _ => none) [("BTCUSDT", c7rec)]).1
  ∧ "o1" ∈ (cancel_expired_limit_orders 200 (fun _ => none) [("BTCUSDT", c7rec)]).2 := by
  have helap : recElapsed 200 c7rec = true := by
    norm_num [recElapsed, c7rec]
  have h := cancel_expired_per_record 200 (fun _ => none) [("BTCUSDT", c7rec)]
    "BTCUSDT" c7rec (by simp)
  exact ⟨h.2.2.1 (by decide) helap,
         by simpa [c7rec] using h.2.2.2.1 (by decide) helap (by simp)⟩


/-- C8: running the expiry sweep twice in succession (same clock, any
statuses the exchange reports after the first run's cancels) yields the
state of the first run: the second run deletes nothing and issues no
cancels. -/
theorem cancel_expired_idem (now : ℚ) (fetch fetch2 : String → Option String) (store : Store) :
    cancel_expired_limit_orders now fetch2 (cancel_expired_limit_orders now fetch store).1
      = ((cancel_expired_limit_orders now fetch store).1, []) := by
  have hfst := cancel_expired_fst now fetch store
  apply Prod.ext
  · rw [cancel_expired_fst, hfst, List.filter_filter]
    apply List.filter_congr
    intro fr _
    cases hA : recReady fr.2 <;> cases hB : recElapsed now fr.2 <;> simp [hA, hB]
  · rw [cancel_expired_snd, hfst, List.filter_filter]
    have hnil : (store.filter (fun fr =>
        (recReady fr.2 && recElapsed now fr.2 &&
          !(decide (fetch2 (fr.2.order_id.getD "") = some "closed"))) &&
        !(recReady fr.2 && recElapsed now fr.2))) = [] := by
      apply List.filter_eq_nil_iff.mpr
      intro fr _
      cases hA : recReady fr.2 <;> cases hB : recElapsed now fr.2 <;> simp [hA, hB]
    rw [hnil]
    rfl


/-! ## C6: orphan cleanup (`remove_unmapped_limit_files`,
`cancel_unpositioned_limits`) -/

/-- One step of the `cancel_unpositioned_limits` loop either leaves the
accumulator unchanged or — for a stale, non-reduce-only, unpositioned
limit order whose cancel succeeds — deletes the order's pair file and
records the cancel. -/
theorem culOrder_cases (now maxAge : ℚ) (posPairs : List String)
    (cancelOk : Option String → Bool) (acc : Store × List (Option String)) (o : PyOrder) :
    culOrder now maxAge posPairs cancelOk acc o = acc
  ∨ (culOrder now maxAge posPairs cancelOk acc o
       = (acc.1.filter (fun fr => fr.1 ≠ orderPair o), acc.2 ++ [o.id])
     ∧ o.reduceOnly = false ∧ isLimitType o = true ∧ orderPair o ∉ posPairs
     ∧ (∃ ts, orderTs o = some ts ∧ maxAge ≤ now - tsToSec ts)
     ∧ cancelOk o.id = true) := by
  by_cases h1 : o.reduceOnly = true
  · left
    simp [culOrder, h1]
  by_cases h2 : isLimitType o = true
  · by_cases h3 : orderPair o ∈ posPairs
    · left
      simp [culOrder, h1, h2, h3]
    · rcases hts : orderTs o with _ | ts
      · left
        simp [culOrder, h1, h2, h3, hts]
      · by_cases h4 : now - tsToSec ts < maxAge
        · left
          simp [culOrder, h1, h2, h3, hts, h4]
        · by_cases h5 : cancelOk o.id = true
          · right
            refine ⟨by simp [culOrder, h1, h2, h3, hts, h4, h5],
              by simpa using h1, h2, h3, ⟨ts, rfl, not_lt.mp h4⟩, h5⟩
          · left
            simp [culOrder, h1, h2, h3, hts, h4, h5]
  · left
    simp [culOrder, h1, h2]


/-- The cancel trace of the stale-limit sweep only ever grows. -/
theorem cul_trace_extends (now maxAge : ℚ) (posPairs : List String)
    (cancelOk : Option String → Bool) (orders : List PyOrder) :
    ∀ acc : Store × List (Option String),
      ∃ l, (orders.foldl (culOrder now maxAge posPairs cancelOk) acc).2 = acc.2 ++ l := by
  induction orders with
  | nil =>
      intro acc
      exact ⟨[], by simp⟩
  | cons o rest ih =>
      intro acc
      obtain ⟨l, hl⟩ := ih (culOrder now maxAge posPairs cancelOk acc o)
      rcases culOrder_cases now maxAge posPairs cancelOk acc o with h | ⟨h, _⟩
      · exact ⟨l, by rw [List.foldl_cons, hl, h]⟩
      · refine ⟨[o.id] ++ l, ?_⟩
        rw [List.foldl_cons, hl, h]
        simp


/-- The stale-limit sweep never deletes a record whose stem is an open
position pair. -/
theorem cul_fold_keeps_pos (now maxAge : ℚ) (posPairs : List String)
    (cancelOk : Option String → Bool) (stem : String) (r : LimitRec)
    (hstem : stem ∈ posPairs) (orders : List PyOrder) :
    ∀ acc : Store × List (Option String), (stem, r) ∈ acc.1 →
      (stem, r) ∈ (orders.foldl (culOrder now maxAge posPairs cancelOk) acc).1 := by
  induction orders with
  | nil =>
      intro acc h
      simpa using h
  | cons o rest ih =>
      intro acc h
      rw [List.foldl_cons]
      apply ih
      rcases culOrder_cases now maxAge posPairs cancelOk acc o with heq | ⟨heq, _, _, hpos, _, _⟩
      · rw [heq]
        exact h
      · rw [heq]
        apply List.mem_filter.mpr
        refine ⟨h, ?_⟩
        simp only [decide_eq_true_eq]
        exact fun hcontra => hpos (hcontra ▸ hstem)


/-- A record the stale-limit sweep deletes had a stale non-reduce-only
limit order on its pair, and that order was cancelled. -/
theorem cul_fold_delete (now maxAge : ℚ) (posPairs : List String)
    (cancelOk : Option String → Bool) (stem : String) (r : LimitRec)
    (orders : List PyOrder) :
    ∀ acc : Store × List (Option String), (stem, r) ∈ acc.1 →
      (stem, r) ∉ (orders.foldl (culOrder now maxAge posPairs cancelOk) acc).1 →
      ∃ o ∈ orders, orderPair o = stem ∧ isLimitType o = true ∧ o.reduceOnly = false
        ∧ (∃ ts, orderTs o = some ts ∧ maxAge ≤ now - tsToSec ts)
        ∧ cancelOk o.id = true
        ∧ o.id ∈ (orders.foldl (culOrder now maxAge posPairs cancelOk) acc).2 := by
  induction orders with
  | nil =>
      intro acc h hnot
      exact absurd h hnot
  | cons o rest ih =>
      intro acc h hnot
      rw [List.foldl_cons] at hnot
      by_cases hm : (stem, r) ∈ (culOrder now maxAge posPairs cancelOk acc o).1
      · obtain ⟨o', ho', hprops⟩ := ih (culOrder now maxAge posPairs cancelOk acc o) hm hnot
        refine ⟨o', List.mem_cons_of_mem o ho', ?_⟩
        rw [List.foldl_cons]
        exact hprops
      · rcases culOrder_cases now maxAge posPairs cancelOk acc o with
          heq | ⟨heq, hro, hlim, hpos, hts, hcok⟩
        · rw [heq] at hm
          exact absurd h hm
        · have hstem : orderPair o = stem := by
            by_contra hne
            apply hm
            rw [heq]
            apply List.mem_filter.mpr
            refine ⟨h, ?_⟩
            simp only [decide_eq_true_eq]
            exact fun hcontra => hne hcontra.symm
          refine ⟨o, List.mem_cons_self o rest, hstem, hlim, hro, hts, hcok, ?_⟩
          obtain ⟨l, hl⟩ := cul_trace_extends now maxAge posPairs cancelOk rest
            (culOrder now maxAge posPairs cancelOk acc o)
          rw [List.foldl_cons, hl, heq]
          simp


/-- C6 amended: when the exchange queries succeed, the record sweep
(`remove_unmapped_limit_files`) keeps every record whose pair has a
live open limit order or an open position; the stale-limit sweep
(`cancel_unpositioned_limits`) never deletes a record whose pair holds
an open position, and deletes a record only after successfully
cancelling a stale non-reduce-only limit order of that pair. -/
theorem orphan_cleanup_amended :
    (∀ (ords : List PyOrder) (poss : List PyPos) (store : Store) (stem : String) (r : LimitRec),
       (stem, r) ∈ store →
       (strUpper stem ∈ (ords.filter isLimitType).map orderPair
        ∨ strUpper stem ∈ getOpenPositionPairs (.ok poss)) →
       (stem, r) ∈ remove_unmapped_limit_files (.ok ords) (.ok poss) store)
  ∧ (∀ (now maxAge : ℚ) (fo : Except Unit (List PyOrder)) (fp : Except Unit (List PyPos))
       (store : Store) (cancelOk : Option String → Bool) (stem : String) (r : LimitRec),
       (stem, r) ∈ store →
       stem ∈ getOpenPositionPairs fp →
       (stem, r) ∈ (cancel_unpositioned_limits now maxAge fo fp store cancelOk).1)
  ∧ (∀ (now maxAge : ℚ) (ords : List PyOrder) (fp : Except Unit (List PyPos))
       (store : Store) (cancelOk : Option String → Bool) (stem : String) (r : LimitRec),
       (stem, r) ∈ store →
       (stem, r) ∉ (cancel_unpositioned_limits now maxAge (.ok ords) fp store cancelOk).1 →
       ∃ o ∈ ords, orderPair o = stem ∧ isLimitType o = true ∧ o.reduceOnly = false
         ∧ (∃ ts, orderTs o = some ts ∧ maxAge ≤ now - tsToSec ts)
         ∧ cancelOk o.id = true
         ∧ o.id ∈ (cancel_unpositioned_limits now maxAge (.ok ords) fp store cancelOk).2) := by
  refine ⟨?_, ?_, ?_⟩
  · intro ords poss store stem r hmem hlive
    apply List.mem_filter.mpr
    refine ⟨hmem, ?_⟩
    simpa using hlive
  · intro now maxAge fo fp store cancelOk stem r hmem hpos
    rcases fo with _ | ords
    · simpa [cancel_unpositioned_limits] using hmem
    · exact cul_fold_keeps_pos now maxAge (getOpenPositionPairs fp) cancelOk stem r hpos
        ords (store, []) hmem
  · intro now maxAge ords fp store cancelOk stem r hmem hdel
    exact cul_fold_delete now maxAge (getOpenPositionPairs fp) cancelOk stem r
      ords (store, []) hmem hdel


/-- Witness for C6: a record with a live limit order survives the
record sweep. -/
theorem orphan_cleanup_amended_witness :
    ("BTCUSDT", c6rec) ∈
      remove_unmapped_limit_files (.ok [c6live]) (.ok []) [("BTCUSDT", c6rec)] :=
  orphan_cleanup_amended.1 [c6live] [] [("BTCUSDT", c6rec)] "BTCUSDT" c6rec
    (by simp) (Or.inl (by decide))


/-- C6 counterexample: as stated over every query outcome the claim
fails — when `fetch_open_orders` raises, the record sweep deletes a
record whose pair still has a live limit order (`c6live`); and even
with successful queries, the stale-limit sweep deletes the record of a
pair that still has a second, fresh live limit order (`c6fresh`, not
cancelled). -/
theorem orphan_cleanup_cex :
    isLimitType c6live = true ∧ orderPair c6live = "BTCUSDT"
  ∧ remove_unmapped_limit_files (.error ()) (.ok []) [("BTCUSDT", c6rec)] = []
  ∧ isLimitType c6fresh = true ∧ orderPair c6fresh = "BTCUSDT"
  ∧ (2000:ℚ) - 1900 < 1800
  ∧ cancel_unpositioned_limits 2000 1800 (.ok [c6stale, c6fresh]) (.ok [])
      [("BTCUSDT", c6rec)] (fun _ => true) = ([], [some "s1"]) := by
  refine ⟨by decide, by decide, by decide, by decide, by decide, by norm_num, ?_⟩
  have hpp : getOpenPositionPairs (Except.ok ([] : List PyPos)) = [] := rfl
  have hstep1 : culOrder 2000 1800 [] (fun _ => true) ([("BTCUSDT", c6rec)], []) c6stale
      = ([], [some "s1"]) := by
    have hts : orderTs c6stale = some 1 := by decide
    have hlim : isLimitType c6stale = true := by decide
    have hpair : orderPair c6stale = "BTCUSDT" := by decide
    have hro : c6stale.reduceOnly = false := by decide
    have hid : c6stale.id = some "s1" := by decide
    simp only [culOrder, hro, hlim, hpair, hts, hid]
    norm_num [tsToSec]
  have hstep2 : culOrder 2000 1800 [] (fun _ => true) ([], [some "s1"]) c6fresh
      = ([], [some "s1"]) := by
    have hts : orderTs c6fresh = some 1900 := by decide
    have hlim : isLimitType c6fresh = true := by decide
    have hpair : orderPair c6fresh = "BTCUSDT" := by decide
    have hro : c6fresh.reduceOnly = false := by decide
    simp only [culOrder, hro, hlim, hpair, hts]
    norm_num [tsToSec]
  show (getOpenPositionPairs (Except.ok []) |> fun posPairs =>
    [c6stale, c6fresh].foldl (culOrder 2000 1800 posPairs (fun _ => true))
      ([("BTCUSDT", c6rec)], [])) = ([], [some "s1"])
  rw [hpp]
  show List.foldl (culOrder 2000 1800 [] (fun _ => true))
    ([("BTCUSDT", c6rec)], []) [c6stale, c6fresh] = ([], [some "s1"])
  rw [List.foldl_cons, hstep1, List.foldl_cons, hstep2, List.foldl_nil]


/-! ## C5: the break-even sweep (`move_sl_to_entry`) -/

/-- C5 amended: the break-even sweep acts whenever the price is at
least one unit of initial risk `|entry − sl|` away from entry in
EITHER direction (favorable or adverse), cancelling the reduce-only
priced orders and re-placing a close-position stop at the entry price;
within one risk unit, or when the snapshot carries no stop-loss, it
does nothing; and when no protective order of a position sits strictly
on the stop side of the raw entry price (in particular when the stop
already equals entry), the snapshot reports no stop-loss, so the sweep
issues no cancel or create for that position. -/
theorem move_sl_amended :
    (∀ env : SweepEnv, move_sl_to_entry env
       = (positions_snapshot env.positions env.ordersOf).foldl (fun acc p =>
           let r := moveSlPos env p
           (acc.1 ++ r.1, acc.2 ++ r.2)) ([], []))
  ∧ (∀ (env : SweepEnv) (p : SnapPos), p.sl = none → moveSlPos env p = ([], []))
  ∧ (∀ (env : SweepEnv) (p : SnapPos) (sl price : ℚ),
       p.sl = some sl → env.ticker (to_ccxt_symbol p.pair) = some price →
       |price - p.entry| < |p.entry - sl| → moveSlPos env p = ([], []))
  ∧ (∀ (env : SweepEnv) (p : SnapPos) (sl price : ℚ) (orders : List PyOrder),
       p.pair ≠ "" → p.side ≠ "" → p.entry ≠ 0 → p.sl = some sl → sl ≠ 0 →
       0 < |p.entry - sl| →
       env.ticker (to_ccxt_symbol p.pair) = some price →
       |p.entry - sl| ≤ |price - p.entry| →
       env.ordersOf (some (to_ccxt_symbol p.pair)) = .ok orders →
       (orders.filter (fun o => o.reduceOnly && truthyQ (extractPriceMove o))).isEmpty = false →
       moveSlPos env p =
         ((orders.filter (fun o => o.reduceOnly && truthyQ (extractPriceMove o))).filterMap
            (fun o => if truthyS o.id then some o.id else none),
          [{ symbol := to_ccxt_symbol p.pair, type := "STOP_MARKET",
             side := if p.side = "buy" then "sell" else "buy",
             stopPrice := some p.entry, closePosition := true }]))
  ∧ (∀ (ordersOf : Option String → Except Unit (List PyOrder)) (p : PyPos)
       (sp : SnapPos) (entryPrice : ℚ),
       posEntry p = some entryPrice →
       snapOne ordersOf p = some sp →
       (∀ o ∈ (match ordersOf (posRawSym p) with
               | .error _ => ([] : List PyOrder)
               | .ok os => os),
          reduceOnlyLike o = true → ∀ pr, extract_price o = some pr →
          (sp.side = "buy" → ¬(pr < entryPrice)) ∧ (sp.side = "sell" → ¬(entryPrice < pr))) →
       sp.sl = none) := by
  refine ⟨fun env => rfl, ?_, ?_, ?_, ?_⟩
  · intro env p hsl
    simp only [moveSlPos]
    rw [if_pos (by simp [hsl, truthyQ])]
  · intro env p sl price hsl ht hlt
    simp only [moveSlPos, hsl, Option.getD_some]
    by_cases hval : p.pair ≠ "" ∧ p.side ≠ "" ∧ p.entry ≠ 0 ∧ truthyQ (some sl)
    · rw [if_neg (not_not_intro hval)]
      by_cases hrisk : |p.entry - sl| ≤ 0
      · rw [if_pos hrisk]
      · rw [if_neg hrisk]
        simp only [ht]
        rw [if_pos hlt]
    · rw [if_pos hval]
  · intro env p sl price orders hp hs he hsl hslne h0 ht hge hord hne
    simp only [moveSlPos, hsl, Option.getD_some]
    rw [if_neg (not_not_intro ⟨hp, hs, he, by simp [truthyQ, hslne]⟩)]
    rw [if_neg (not_le.mpr h0)]
    simp only [ht]
    rw [if_neg (not_lt.mpr hge)]
    simp only [hord]
    rw [if_neg (by simp [hne])]
  · intro ordersOf p sp entryPrice hE hsnap hno
    rcases hA : posAmtSnap p with _ | amt
    · simp [snapOne, hA] at hsnap
    · simp only [snapOne, hA, hE] at hsnap
      by_cases h0 : amt = 0
      · simp [h0] at hsnap
      · rw [if_neg h0] at hsnap
        injection hsnap with hX
        subst hX
        by_cases hamt : amt > 0
        · have hside : (if amt > 0 then "buy" else "sell") = "buy" := if_pos hamt
          simp only [hside, ite_true]
          set Ls := List.filterMap extract_price
            (List.filter (fun o => reduceOnlyLike o && (extract_price o).isSome)
              (match ordersOf (posRawSym p) with
               | Except.error _ => ([] : List PyOrder)
               | Except.ok os => os)) with hLs
          have hnil : List.filter (fun pr => decide (pr < entryPrice)) Ls = [] := by
            apply List.filter_eq_nil_iff.mpr
            intro pr hpr
            rw [hLs] at hpr
            obtain ⟨o, hoMem, hoPr⟩ := List.mem_filterMap.mp hpr
            obtain ⟨hoOrd, hoCond⟩ := List.mem_filter.mp hoMem
            have hrol : reduceOnlyLike o = true := by
              simp only [Bool.and_eq_true] at hoCond
              exact hoCond.1
            have hkey := hno o hoOrd hrol pr hoPr
            have h1 : ¬(pr < entryPrice) := hkey.1 (by simp [hside])
            simp [h1]
          rw [if_pos hnil]
        · have hside : (if amt > 0 then "buy" else "sell") = "sell" := if_neg hamt
          simp only [hside, String.reduceEq, ite_false]
          set Ls := List.filterMap extract_price
            (List.filter (fun o => reduceOnlyLike o && (extract_price o).isSome)
              (match ordersOf (posRawSym p) with
               | Except.error _ => ([] : List PyOrder)
               | Except.ok os => os)) with hLs
          have hnil : List.filter (fun pr => decide (entryPrice < pr)) Ls = [] := by
            apply List.filter_eq_nil_iff.mpr
            intro pr hpr
            rw [hLs] at hpr
            obtain ⟨o, hoMem, hoPr⟩ := List.mem_filterMap.mp hpr
            obtain ⟨hoOrd, hoCond⟩ := List.mem_filter.mp hoMem
            have hrol : reduceOnlyLike o = true := by
              simp only [Bool.and_eq_true] at hoCond
              exact hoCond.1
            have hkey := hno o hoOrd hrol pr hoPr
            have h1 : ¬(entryPrice < pr) := hkey.2 (by simp [hside])
            simp [h1]
          rw [if_pos hnil]


/-- Witness for C5: price 95 is within one risk unit of entry 100 with
stop 90, so the sweep does nothing. -/
theorem move_sl_amended_witness :
    moveSlPos c5near c5snap = ([], []) :=
  move_sl_amended.2.2.1 c5near c5snap 90 95 rfl (by decide) (by norm_num [c5snap])


/-- The snapshot of the C5 counterexample state. -/
theorem c5_snapshot_eval :
    positions_snapshot c5Env.positions c5Env.ordersOf = [c5snap] := by
  have hsnap1 : snapOne c5Env.ordersOf c5pos =
      some { pair := "BTCUSDT", side := "buy", entry := rfloat 100 6,
             qty := rfloat 1 6, sl := some (rfloat 90 6) } := rfl
  have h2 : positions_snapshot c5Env.positions c5Env.ordersOf =
      [{ pair := "BTCUSDT", side := "buy", entry := rfloat 100 6,
         qty := rfloat 1 6, sl := some (rfloat 90 6) }] := by
    show List.filterMap (snapOne c5Env.ordersOf) [c5pos] = _
    rw [List.filterMap_cons, hsnap1, List.filterMap_nil]
  rw [h2, rfloat_100, rfloat_90, rfloat_1]
  rfl


/-- C5 counterexample: with a long from 100, stop 90 and last price 85
— a move of 1.5 risk units AGAINST the trade — the sweep still cancels
the stop and re-places it at entry, refuting "only when the price has
moved in the trade's favorable direction". -/
theorem move_sl_adverse_cex :
    (85:ℚ) < 100
  ∧ move_sl_to_entry c5Env =
      ([some "s1"],
       [{ symbol := "BTC/USDT", type := "STOP_MARKET", side := "sell",
          stopPrice := some 100, closePosition := true }]) := by
  refine ⟨by norm_num, ?_⟩
  have h0 : move_sl_to_entry c5Env =
      (positions_snapshot c5Env.positions c5Env.ordersOf).foldl (fun acc p =>
        let r := moveSlPos c5Env p
        (acc.1 ++ r.1, acc.2 ++ r.2)) ([], []) := rfl
  rw [h0, c5_snapshot_eval]
  have h1 : moveSlPos c5Env c5snap =
      ([some "s1"],
       [{ symbol := "BTC/USDT", type := "STOP_MARKET", side := "sell",
          stopPrice := some 100, closePosition := true }]) := by
    simp only [moveSlPos, c5snap]
    norm_num [truthyQ]
    rw [show c5Env.ticker (to_ccxt_symbol "BTCUSDT") = some 85 from rfl]
    norm_num
    rw [show c5Env.ordersOf (some (to_ccxt_symbol "BTCUSDT")) = Except.ok [c5stop] from rfl]
    decide
  simp [h1]


/-! ## C9: the max-open-positions gate of `run` -/

/-- C9: in a live run, when the number of distinct pairs holding a
non-zero open position reaches the configured `MAX_OPEN_POSITIONS`
limit, `run` returns a record whose coins/placed/closed/moved-sl/
closed-partial lists are all empty, builds no payload, never calls the
decision oracle and creates no order. -/
theorem run_max_positions_gate (env : RunEnv)
    (h : env.maxPos ≤ (getOpenPositionPairs env.gatePos).length) :
    (run true env).coins = [] ∧ (run true env).placed = [] ∧ (run true env).closed = []
  ∧ (run true env).movedSl = [] ∧ (run true env).closedPart = []
  ∧ (run true env).payloadBuilt = false ∧ (run true env).oracleCalled = false
  ∧ (run true env).created = [] := by
  simp only [run]
  rw [if_pos ⟨trivial, h⟩]
  simp


/-- Witness for C9: ten open positions at the default limit of 10. -/
theorem run_max_positions_gate_witness :
    10 ≤ (getOpenPositionPairs gateEnv.gatePos).length
  ∧ ((run true gateEnv).coins = [] ∧ (run true gateEnv).placed = []
     ∧ (run true gateEnv).closed = [] ∧ (run true gateEnv).movedSl = []
     ∧ (run true gateEnv).closedPart = [] ∧ (run true gateEnv).payloadBuilt = false
     ∧ (run true gateEnv).oracleCalled = false ∧ (run true gateEnv).created = []) :=
  ⟨by decide, run_max_positions_gate gateEnv (by decide)⟩


/-! ## C1: close instructions in the `run` pipeline -/

/-- `pos_map.get(pair)` on the empty map is `None`. -/
theorem posMapGet_nil (k : String) : posMapGet [] k = none := rfl

/-- The `close_partial` loop does nothing when `pos_map` is empty:
every iteration hits `pos_map.get(pair)` falsy and `continue`s. -/
theorem closePartLoop_empty_map (env : RunEnv) (l : List (String × ℚ)) :
    closePartLoop env [] l = ([], []) := by
  induction l with
  | nil => rfl
  | cons a rest ih =>
      obtain ⟨pair, pct⟩ := a
      exact ih

/-- Every order the placement loop submits is a non-reduce-only entry
order (`reduceOnly = False` in the limit-order params). -/
theorem placeLoop_orders_entry (env : RunEnv) (pp : List String) :
    ∀ cs st, ∀ o ∈ (placeLoop env pp cs st).2.2.1, o.reduceOnly = false := by
  intro cs
  induction cs with
  | nil =>
      intro st o ho
      simp [placeLoop] at ho
  | cons c rest ih =>
      intro st o ho
      simp only [placeLoop] at ho
      split at ho
      · exact ih st o ho
      · split at ho
        · rcases List.mem_cons.mp ho with hh | hh
          · rw [hh]
          · exact ih _ o hh
        · exact ih _ o ho

/-- C1 (code bug evaluation): the claim says a parsed close instruction
for a pair makes the live run close that pair's position.  In the
composed program close instructions are entirely inert: `run` builds
`pos_map` from `payload_full.get("positions", [])`, but `build_payload`
never emits a `positions` key, so `pos_map` is empty on every run; the
`close_all` branch then iterates an empty `pos_map` and appends no
pair, and the per-pair branch reads `acts.get("close")`, a key
`parse_mini_actions` never produces.  Hence whenever the payload
positions come from `build_payload`, `run` closes no position,
partially closes none, moves no stop, and every order it creates is a
non-reduce-only entry order — no matter what the oracle instructs or
what positions are open on the exchange. -/
theorem run_close_acts_inert (runLive : Bool) (env : RunEnv)
    (t : String) (eth cs : List String)
    (h : env.payloadPositions = payloadGetPositions (build_payload t eth cs)) :
    (run runLive env).closed = [] ∧ (run runLive env).closedPart = []
  ∧ (run runLive env).movedSl = []
  ∧ ∀ o ∈ (run runLive env).created, o.reduceOnly = false := by
  have hp : env.payloadPositions = [] := h
  have hpm : buildPosMap ([] : List SnapPos) = [] := rfl
  simp only [run, hp, hpm, List.map_nil, List.filter_nil, List.nil_append, ite_self,
    closeLoop, moveSlLoop, closePartLoop_empty_map]
  split_ifs <;>
    refine ⟨by simp, by simp, by simp, ?_⟩ <;>
      first
        | (simp; done)
        | exact placeLoop_orders_entry env _ _ _

/-- Witness for C1's evaluation: a live run against an exchange that
holds an open BTCUSDT position, with the oracle instructing
`close_all` of BTCUSDT; the instruction parses, the oracle is
consulted, and still nothing is closed. -/
theorem run_close_acts_inert_witness :
    (parse_mini_actions inertEnv.oracle).close_all = ["BTCUSDT"]
  ∧ getOpenPositionPairs inertEnv.livePos = ["BTCUSDT"]
  ∧ (run true inertEnv).oracleCalled = true
  ∧ ((run true inertEnv).closed = [] ∧ (run true inertEnv).closedPart = []
     ∧ (run true inertEnv).movedSl = []
     ∧ ∀ o ∈ (run true inertEnv).created, o.reduceOnly = false) :=
  ⟨by decide, by decide, by decide,
    run_close_acts_inert true inertEnv "" [] ["BTCUSDT"] rfl⟩

end Scalping
